import Mathlib

/-!
# Sia: transaction identifiers, output sums and the consensus block lookup

A shallow embedding of `types/transactions.go` and `node/api/consensus.go`.

* Byte strings are lists of naturals, each element standing for one byte.
* `crypto.NewHash` is a streaming hasher: the model keeps the bytes written so
  far and applies the digest function (a parameter, the primitive is external)
  when `Sum` is called.
* The types whose declarations live outside the embedded files
  (`UnlockConditions`, `FileContractRevision`, `StorageProof`,
  `TransactionSignature`) are type parameters `UC`, `FCR`, `SP`, `TS`.
-/

set_option autoImplicit false

namespace Sia

/-- A byte string: every element stands for one byte. -/
abbrev Bytes := List Nat

/-- The value `crypto.Hash`, a digest, kept as its byte string. -/
abbrev Hash := Bytes

/-! ## The streaming hasher (`crypto.NewHash`, `Write`, `Sum`) -/

/-- The state of a running hash computation: everything written so far. -/
structure Hasher where
  written : Bytes
  deriving DecidableEq, Repr

/-- A fresh hasher, `crypto.NewHash()`: nothing written yet. -/
def NewHash : Hasher := ⟨[]⟩

/-- Feeding bytes to the hasher, `h.Write(p)`, appends them to its input. -/
def Hasher.Write (h : Hasher) (p : Bytes) : Hasher := ⟨h.written ++ p⟩

/-- Finishing, `h.Sum(id[:0])`: the digest of everything written. -/
def Hasher.Sum (hash : Bytes → Hash) (h : Hasher) : Hash := hash h.written

/-- The eight bytes of a `uint64`, least significant first, as
`encoding.WriteUint64` puts them on the wire. -/
def uint64Bytes (u : Nat) : Bytes :=
  (List.range 8).map (fun k => (u % 2 ^ 64) / 256 ^ k % 256)

/-- The call `encoding.WriteUint64(h, u)`. -/
def WriteUint64 (h : Hasher) (u : Nat) : Hasher := h.Write (uint64Bytes u)

namespace types

/-! ## Specifiers -/

/-- The constant `SpecifierLen`: a specifier is sixteen bytes wide. -/
def SpecifierLen : Nat := 16

/-- A specifier, `[16]byte` in the source, kept as its byte string. -/
abbrev Specifier := Bytes

/-- The UTF-8 bytes of a string, which is what a Go `string` holds. -/
def stringBytes (s : String) : Bytes :=
  s.data.flatMap (fun c => (String.utf8EncodeChar c).map UInt8.toNat)

/-- Whether every character of the string is ASCII. -/
def isASCII (s : String) : Bool := s.data.all (fun c => decide (c.toNat < 128))

/-- Modelled from the spec: `NewSpecifier` (types/specifier.go is missing from
the embedded sources). A specifier is a fixed-width, sixteen-byte tag made from
a name: the bytes of the name are laid out from the left, cut at sixteen bytes
when the name is longer and filled up with zero bytes when it is shorter. -/
def NewSpecifier (name : String) : Specifier :=
  let b := (stringBytes name).take SpecifierLen
  b ++ List.replicate (SpecifierLen - b.length) 0

def SpecifierClaimOutput : Specifier := NewSpecifier "claim output"
def SpecifierFileContract : Specifier := NewSpecifier "file contract"
def SpecifierFileContractRevision : Specifier := NewSpecifier "file contract re"
def SpecifierMinerFee : Specifier := NewSpecifier "miner fee"
def SpecifierMinerPayout : Specifier := NewSpecifier "miner payout"
def SpecifierSiacoinInput : Specifier := NewSpecifier "siacoin input"
def SpecifierSiacoinOutput : Specifier := NewSpecifier "siacoin output"
def SpecifierSiafundInput : Specifier := NewSpecifier "siafund input"
def SpecifierSiafundOutput : Specifier := NewSpecifier "siafund output"
def SpecifierStorageProofOutput : Specifier := NewSpecifier "storage proof"
def SpecifierFoundation : Specifier := NewSpecifier "foundation"

/-- The names handed to `NewSpecifier` by the eleven constants, in the order of
their declarations. -/
def specifierNames : List String :=
  ["claim output", "file contract", "file contract re", "miner fee", "miner payout",
   "siacoin input", "siacoin output", "siafund input", "siafund output",
   "storage proof", "foundation"]

/-- The eleven specifier constants, in the order of their declarations. -/
def allSpecifiers : List Specifier :=
  [SpecifierClaimOutput, SpecifierFileContract, SpecifierFileContractRevision,
   SpecifierMinerFee, SpecifierMinerPayout, SpecifierSiacoinInput,
   SpecifierSiacoinOutput, SpecifierSiafundInput, SpecifierSiafundOutput,
   SpecifierStorageProofOutput, SpecifierFoundation]

/-! ## The data model -/

/-- Modelled from the spec: `Currency` (types/currency.go is missing from the
embedded sources). An amount of coins is a non-negative integer of unbounded
size. -/
abbrev Currency := Nat

/-- Modelled from the spec: `Currency.Add` (types/currency.go is missing from
the embedded sources). Amounts are summed exactly. -/
def Currency.Add (x y : Currency) : Currency := x + y

abbrev TransactionID := Hash
abbrev SiacoinOutputID := Hash
abbrev SiafundOutputID := Hash
abbrev FileContractID := Hash
abbrev OutputID := Hash
abbrev UnlockHash := Hash
abbrev BlockID := Hash
/-- A block height, `uint64` in the source. -/
abbrev BlockHeight := Nat

structure SiacoinInput (UC : Type) where
  ParentID : SiacoinOutputID
  UnlockConditions : UC
  deriving DecidableEq, Repr

structure SiacoinOutput where
  Value : Currency
  UnlockHash : UnlockHash
  deriving DecidableEq, Repr

structure SiafundInput (UC : Type) where
  ParentID : SiafundOutputID
  UnlockConditions : UC
  ClaimUnlockHash : UnlockHash
  deriving DecidableEq, Repr

structure SiafundOutput where
  Value : Currency
  UnlockHash : UnlockHash
  ClaimStart : Currency
  deriving DecidableEq, Repr

/-- A file contract. Its declaration is outside the embedded files; the fields
are those that `ConsensusBlocksGetFileContract` copies from it one by one. -/
structure FileContract where
  FileSize : Nat
  FileMerkleRoot : Hash
  WindowStart : BlockHeight
  WindowEnd : BlockHeight
  Payout : Currency
  ValidProofOutputs : List SiacoinOutput
  MissedProofOutputs : List SiacoinOutput
  UnlockHash : UnlockHash
  RevisionNumber : Nat
  deriving DecidableEq, Repr

structure Transaction (UC FCR SP TS : Type) where
  SiacoinInputs : List (SiacoinInput UC)
  SiacoinOutputs : List SiacoinOutput
  FileContracts : List FileContract
  FileContractRevisions : List FCR
  StorageProofs : List SP
  SiafundInputs : List (SiafundInput UC)
  SiafundOutputs : List SiafundOutput
  MinerFees : List Currency
  ArbitraryData : List Bytes
  TransactionSignatures : List TS
  deriving DecidableEq, Repr

/-! ## Identifiers -/

/-- The encoders of the nine fields of a transaction that enter its identity,
one per field. They belong to the encoding library and to types whose
declarations are outside the embedded files, so they are parameters. -/
structure FieldEncoders (UC FCR SP : Type) where
  SiacoinInputs : List (SiacoinInput UC) → Bytes
  SiacoinOutputs : List SiacoinOutput → Bytes
  FileContracts : List FileContract → Bytes
  FileContractRevisions : List FCR → Bytes
  StorageProofs : List SP → Bytes
  SiafundInputs : List (SiafundInput UC) → Bytes
  SiafundOutputs : List SiafundOutput → Bytes
  MinerFees : List Currency → Bytes
  ArbitraryData : List Bytes → Bytes

section ids

variable {UC FCR SP TS : Type}

/-- Modelled from the spec: the bytes produced by `marshalSiaNoSignatures`
(types/encoding.go is missing from the embedded sources). The canonical
encoding of a transaction without its signatures: every field except the
signature list, each in its fixed place, in the order of the declaration. -/
def encodeNoSignatures (E : FieldEncoders UC FCR SP) (t : Transaction UC FCR SP TS) : Bytes :=
  E.SiacoinInputs t.SiacoinInputs ++ E.SiacoinOutputs t.SiacoinOutputs ++
  E.FileContracts t.FileContracts ++ E.FileContractRevisions t.FileContractRevisions ++
  E.StorageProofs t.StorageProofs ++ E.SiafundInputs t.SiafundInputs ++
  E.SiafundOutputs t.SiafundOutputs ++ E.MinerFees t.MinerFees ++
  E.ArbitraryData t.ArbitraryData

/-- Modelled from the spec: `Transaction.marshalSiaNoSignatures`
(types/encoding.go is missing from the embedded sources). It writes the
encoding of the transaction without its signatures to the given writer. -/
def Transaction.marshalSiaNoSignatures (E : FieldEncoders UC FCR SP)
    (t : Transaction UC FCR SP TS) (h : Hasher) : Hasher :=
  h.Write (encodeNoSignatures E t)

/-- The hasher of `Transaction.ID` right before `h.Sum`. -/
def Transaction.IDHasher (E : FieldEncoders UC FCR SP) (t : Transaction UC FCR SP TS) :
    Hasher :=
  let h := NewHash
  t.marshalSiaNoSignatures E h

/-- The method `Transaction.ID`: the hash of all data minus the signatures. -/
def Transaction.ID (hash : Bytes → Hash) (E : FieldEncoders UC FCR SP)
    (t : Transaction UC FCR SP TS) : TransactionID :=
  (t.IDHasher E).Sum hash

/-- The hasher of `Transaction.SiacoinOutputID` right before `h.Sum`. -/
def Transaction.SiacoinOutputIDHasher (E : FieldEncoders UC FCR SP)
    (t : Transaction UC FCR SP TS) (i : Nat) : Hasher :=
  let h := NewHash
  let h := h.Write SpecifierSiacoinOutput
  let h := t.marshalSiaNoSignatures E h
  WriteUint64 h i

/-- The method `Transaction.SiacoinOutputID`. -/
def Transaction.SiacoinOutputID (hash : Bytes → Hash) (E : FieldEncoders UC FCR SP)
    (t : Transaction UC FCR SP TS) (i : Nat) : SiacoinOutputID :=
  (t.SiacoinOutputIDHasher E i).Sum hash

/-- The hasher of `Transaction.FileContractID` right before `h.Sum`. -/
def Transaction.FileContractIDHasher (E : FieldEncoders UC FCR SP)
    (t : Transaction UC FCR SP TS) (i : Nat) : Hasher :=
  let h := NewHash
  let h := h.Write SpecifierFileContract
  let h := t.marshalSiaNoSignatures E h
  WriteUint64 h i

/-- The method `Transaction.FileContractID`. -/
def Transaction.FileContractID (hash : Bytes → Hash) (E : FieldEncoders UC FCR SP)
    (t : Transaction UC FCR SP TS) (i : Nat) : FileContractID :=
  (t.FileContractIDHasher E i).Sum hash

/-- The hasher of `Transaction.SiafundOutputID` right before `h.Sum`. -/
def Transaction.SiafundOutputIDHasher (E : FieldEncoders UC FCR SP)
    (t : Transaction UC FCR SP TS) (i : Nat) : Hasher :=
  let h := NewHash
  let h := h.Write SpecifierSiafundOutput
  let h := t.marshalSiaNoSignatures E h
  WriteUint64 h i

/-- The method `Transaction.SiafundOutputID`. -/
def Transaction.SiafundOutputID (hash : Bytes → Hash) (E : FieldEncoders UC FCR SP)
    (t : Transaction UC FCR SP TS) (i : Nat) : SiafundOutputID :=
  (t.SiafundOutputIDHasher E i).Sum hash

/-! ## The sum of the siacoin outputs -/

/-- The method `Transaction.SiacoinOutputSum`: three loops over the siacoin
outputs, the file contracts and the miner fees, adding to one running sum. -/
def Transaction.SiacoinOutputSum (t : Transaction UC FCR SP TS) : Currency :=
  let sum : Currency := 0
  let sum := t.SiacoinOutputs.foldl (fun sum sco => Currency.Add sum sco.Value) sum
  let sum := t.FileContracts.foldl (fun sum fc => Currency.Add sum fc.Payout) sum
  let sum := t.MinerFees.foldl (fun sum fee => Currency.Add sum fee) sum
  sum

end ids

end types

namespace api

open types

/-! ## The block lookup of the consensus API (`node/api/consensus.go`) -/

/-- The constant `http.StatusBadRequest`. -/
def StatusBadRequest : Nat := 400

/-- The constant `http.StatusInternalServerError`. -/
def StatusInternalServerError : Nat := 500

/-- A block. Its declaration is outside the embedded files; the fields are those
that `consensusBlocksHandler` reads. -/
structure Block (UC FCR SP TS : Type) where
  ParentID : BlockID
  Nonce : Bytes
  Timestamp : Nat
  MinerPayouts : List SiacoinOutput
  Transactions : List (Transaction UC FCR SP TS)
  deriving DecidableEq, Repr

/-- The zero value of `types.Block`, what `var b types.Block` holds. -/
def Block.zero {UC FCR SP TS : Type} : Block UC FCR SP TS :=
  ⟨List.replicate 32 0, List.replicate 8 0, 0, [], []⟩

/-- A Go `map[string]V`, kept as its list of entries with distinct keys. -/
abbrev StringMap (V : Type) := List (String × V)

/-- The assignment `m[k] = v`: the entry of `k` is replaced or added. -/
def StringMap.set {V : Type} (m : StringMap V) (k : String) (v : V) : StringMap V :=
  m.filter (fun p => p.1 != k) ++ [(k, v)]

/-- The lookup `m[k]` with its presence flag. -/
def StringMap.get? {V : Type} (m : StringMap V) (k : String) : Option V :=
  m.lookup k

/-- The response type `ConsensusBlocksGet` that `consensusBlocksHandler` fills in
by position (the declaration with nine fields). -/
structure ConsensusBlocksGet (UC FCR SP TS : Type) where
  ID : BlockID
  Height : BlockHeight
  ParentID : BlockID
  Nonce : Bytes
  Timestamp : Nat
  MinerPayouts : List SiacoinOutput
  Transactions : List (Transaction UC FCR SP TS)
  TransactionIDs : List TransactionID
  SiacoinOutputIDs : StringMap SiacoinOutputID
  deriving DecidableEq, Repr

/-- What a handler wrote to its response writer: `WriteError(w, Error{msg},
status)`, `WriteJSON(w, body)` or `WriteSuccess(w)`. -/
inductive Response (α : Type) where
  | error (msg : String) (status : Nat)
  | json (body : α)
  | success
  deriving DecidableEq, Repr

/-- The calls a handler makes while it serves a request: the two parsers of the
selectors and the two queries of the consensus engine. -/
inductive Call where
  | LoadString (id : String)
  | Sscan (height : String)
  | BlockByID (bid : BlockID)
  | BlockAtHeight (h : BlockHeight)
  deriving DecidableEq, Repr

/-- Whether a call is a query of the consensus engine. -/
def Call.isEngineQuery : Call → Bool
  | .BlockByID _ => true
  | .BlockAtHeight _ => true
  | _ => false

/-- The part of the consensus engine (`api.cs`) that the block lookup queries.
Both lookups return their Go result tuple, the last component being the
found flag. -/
structure ConsensusSet (UC FCR SP TS : Type) where
  BlockByID : BlockID → Block UC FCR SP TS × BlockHeight × Bool
  BlockAtHeight : BlockHeight → Block UC FCR SP TS × Bool

/-- The collaborators of the handlers that are outside the embedded files. -/
structure Env (UC FCR SP TS : Type) where
  /-- The digest function behind `crypto.NewHash`. -/
  hash : Bytes → Hash
  /-- The field encoders behind `marshalSiaNoSignatures`. -/
  E : FieldEncoders UC FCR SP
  /-- The method `Block.ID`. -/
  blockID : Block UC FCR SP TS → BlockID
  /-- The method `TransactionID.String`, used by the verb `%s`. -/
  txidString : TransactionID → String
  /-- The method `BlockID.LoadString`; `none` stands for a returned error. -/
  LoadString : String → Option BlockID
  /-- The call `fmt.Sscan(height, &h)`; `none` stands for a returned error. -/
  Sscan : String → Option BlockHeight
  /-- The consensus engine `api.cs`. -/
  cs : ConsensusSet UC FCR SP TS

/-- The outcome of serving one request: the response written and the calls made,
in the order they were made. -/
structure Outcome (α : Type) where
  response : Response α
  calls : List Call
  deriving DecidableEq, Repr

/-- The local variables `b`, `exists` and `blockheight` of
`consensusBlocksHandler`. -/
structure Vars (UC FCR SP TS : Type) where
  b : Block UC FCR SP TS
  found : Bool
  blockheight : BlockHeight

section handler

variable {UC FCR SP TS : Type}

/-- The block "Handle request by id" of `consensusBlocksHandler`: either the
handler returns (left) or it goes on with the updated variables (right). -/
def handleByID (env : Env UC FCR SP TS) (id : String) (v : Vars UC FCR SP TS)
    (calls : List Call) :
    Outcome (ConsensusBlocksGet UC FCR SP TS) ⊕ (Vars UC FCR SP TS × List Call) :=
  if id ≠ "" then
    match env.LoadString id with
    | none =>
      .inl ⟨.error "failed to unmarshal blockid" StatusBadRequest, calls ++ [.LoadString id]⟩
    | some bid =>
      let r := env.cs.BlockByID bid
      .inr (⟨r.1, r.2.2, r.2.1⟩, calls ++ [.LoadString id, .BlockByID bid])
  else .inr (v, calls)

/-- The block "Handle request by height" of `consensusBlocksHandler`. -/
def handleByHeight (env : Env UC FCR SP TS) (height : String) (v : Vars UC FCR SP TS)
    (calls : List Call) :
    Outcome (ConsensusBlocksGet UC FCR SP TS) ⊕ (Vars UC FCR SP TS × List Call) :=
  if height ≠ "" then
    match env.Sscan height with
    | none =>
      .inl ⟨.error "failed to parse block height" StatusBadRequest, calls ++ [.Sscan height]⟩
    | some h =>
      let r := env.cs.BlockAtHeight h
      .inr (⟨r.1, r.2, h⟩, calls ++ [.Sscan height, .BlockAtHeight h])
  else .inr (v, calls)

/-- The key `fmt.Sprintf("%s_%d", txid, j)`. -/
def outputKey (env : Env UC FCR SP TS) (txid : TransactionID) (j : Nat) : String :=
  env.txidString txid ++ "_" ++ toString j

/-- The inner loop of `consensusBlocksHandler` over the siacoin outputs of one
transaction. -/
def addSiacoinOutputIDs (env : Env UC FCR SP TS) (txn : Transaction UC FCR SP TS)
    (txid : TransactionID) (m : StringMap SiacoinOutputID) : StringMap SiacoinOutputID :=
  (List.range txn.SiacoinOutputs.length).foldl
    (fun m j => m.set (outputKey env txid j) (txn.SiacoinOutputID env.hash env.E j)) m

/-- The loop of `consensusBlocksHandler` over the transactions of the block: it
returns `transactionIDs` and `siacoinOutputIDs`. -/
def collectIDs (env : Env UC FCR SP TS) (txns : List (Transaction UC FCR SP TS)) :
    List TransactionID × StringMap SiacoinOutputID :=
  txns.foldl
    (fun acc txn =>
      let txid := txn.ID env.hash env.E
      (acc.1 ++ [txid], addSiacoinOutputIDs env txn txid acc.2))
    ([], [])

/-- The handler `API.consensusBlocksHandler`, with the two form values `id` and
`height` of the request. -/
def consensusBlocksHandler (env : Env UC FCR SP TS) (id height : String) :
    Outcome (ConsensusBlocksGet UC FCR SP TS) :=
  if id ≠ "" ∧ height ≠ "" then
    ⟨.error "can't specify both id and height" StatusBadRequest, []⟩
  else if id = "" ∧ height = "" then
    ⟨.error "either id or height has to be provided" StatusBadRequest, []⟩
  else
    match handleByID env id ⟨Block.zero, false, 0⟩ [] with
    | .inl out => out
    | .inr (v, calls) =>
      match handleByHeight env height v calls with
      | .inl out => out
      | .inr (v, calls) =>
        if !v.found then
          ⟨.error "block doesn't exist" StatusBadRequest, calls⟩
        else
          let ids := collectIDs env v.b.Transactions
          ⟨.json ⟨env.blockID v.b, v.blockheight, v.b.ParentID, v.b.Nonce, v.b.Timestamp,
              v.b.MinerPayouts, v.b.Transactions, ids.1, ids.2⟩, calls⟩

end handler

end api

/-! ## Auxiliary definitions for the statements -/

/-- Reading a byte string back as a number, least significant byte first. -/
def decodeLE (b : Bytes) : Nat := b.foldr (fun x acc => x + 256 * acc) 0

/-- The digest function has no collision among the given inputs. -/
@[reducible] def CollisionFree (hash : Bytes → Hash) (xs : List Bytes) : Prop :=
  ∀ x ∈ xs, ∀ y ∈ xs, hash x = hash y → x = y

/-- Two pre-images have the same length and differ, but only within their last
eight bytes: their parts before the last eight bytes are equal and their last
eight bytes are not. -/
@[reducible] def DifferOnlyInLast8 (a b : Bytes) : Prop :=
  a.length = b.length ∧ a ≠ b ∧ a.take (a.length - 8) = b.take (b.length - 8) ∧
  a.drop (a.length - 8) ≠ b.drop (b.length - 8)

namespace types

/-- Two transactions agree on every field except `TransactionSignatures`. -/
@[reducible] def AgreeExceptSignatures {UC FCR SP TS : Type} (t1 t2 : Transaction UC FCR SP TS) : Prop :=
  t1.SiacoinInputs = t2.SiacoinInputs ∧ t1.SiacoinOutputs = t2.SiacoinOutputs ∧
  t1.FileContracts = t2.FileContracts ∧
  t1.FileContractRevisions = t2.FileContractRevisions ∧
  t1.StorageProofs = t2.StorageProofs ∧ t1.SiafundInputs = t2.SiafundInputs ∧
  t1.SiafundOutputs = t2.SiafundOutputs ∧ t1.MinerFees = t2.MinerFees ∧
  t1.ArbitraryData = t2.ArbitraryData

end types

/-! ## Example data -/

namespace Example

open types api

/-- A toy digest: the input cut or zero-filled to thirty-two bytes. -/
def hash (b : Bytes) : Hash := (b ++ List.replicate 32 0).take 32

/-- Toy field encoders: the amounts of the siacoin outputs, the payouts of the
file contracts and the miner fees are written out, the other fields only
contribute their length. -/
def encoders : FieldEncoders Nat Nat Nat where
  SiacoinInputs := fun l => [l.length]
  SiacoinOutputs := fun l => l.length :: l.map (fun o => o.Value)
  FileContracts := fun l => l.length :: l.map (fun c => c.Payout)
  FileContractRevisions := fun l => l.length :: l
  StorageProofs := fun l => l.length :: l
  SiafundInputs := fun l => [l.length]
  SiafundOutputs := fun l => l.length :: l.map (fun o => o.Value)
  MinerFees := fun l => l.length :: l
  ArbitraryData := fun l => l.length :: l.flatten

/-- A transaction with siacoin outputs of 100 and 250, a miner fee of 5, no file
contract, and two signatures. -/
def tx : Transaction Nat Nat Nat Nat where
  SiacoinInputs := []
  SiacoinOutputs := [⟨100, [1]⟩, ⟨250, [2]⟩]
  FileContracts := []
  FileContractRevisions := []
  StorageProofs := []
  SiafundInputs := []
  SiafundOutputs := []
  MinerFees := [5]
  ArbitraryData := []
  TransactionSignatures := [11, 12]

/-- The transaction `tx` signed again, with a single other signature. -/
def txResigned : Transaction Nat Nat Nat Nat :=
  { tx with TransactionSignatures := [99] }

/-- A transaction with the same siacoin outputs and miner fees as `tx`, one file
contract of payout 40 and something in every other field. -/
def txOther : Transaction Nat Nat Nat Nat where
  SiacoinInputs := [⟨[3], 4⟩]
  SiacoinOutputs := [⟨100, [1]⟩, ⟨250, [2]⟩]
  FileContracts := [⟨10, [], 1, 2, 40, [⟨7, []⟩], [⟨8, []⟩, ⟨9, []⟩], [], 0⟩]
  FileContractRevisions := [1]
  StorageProofs := [2, 3]
  SiafundInputs := [⟨[5], 6, [7]⟩]
  SiafundOutputs := [⟨1000, [], 0⟩]
  MinerFees := [5]
  ArbitraryData := [[1, 2, 3]]
  TransactionSignatures := [11]
/-- A transaction with the siacoin outputs and miner fees of `txOther` and one
file contract of the same payout 40, every other field being different. -/
def txOther2 : Transaction Nat Nat Nat Nat where
  SiacoinInputs := []
  SiacoinOutputs := [⟨100, [1]⟩, ⟨250, [2]⟩]
  FileContracts := [⟨0, [1], 5, 6, 40, [], [⟨1, [2]⟩], [3], 4⟩]
  FileContractRevisions := []
  StorageProofs := []
  SiafundInputs := []
  SiafundOutputs := []
  MinerFees := [5]
  ArbitraryData := []
  TransactionSignatures := []
/-- A block holding the two example transactions. -/
def block : Block Nat Nat Nat Nat := ⟨[0], [0], 7, [⟨30, [9]⟩], [tx, txOther]⟩

/-- An environment whose hash parser accepts no string, whose height parser
reads decimal digits, and whose engine knows `block` at heights below 5. -/
def env : Env Nat Nat Nat Nat where
  hash := hash
  E := encoders
  blockID := fun _ => [42]
  txidString := fun h => toString h
  LoadString := fun _ => none
  Sscan := fun s => s.toNat?
  cs := ⟨fun _ => (block, 3, true), fun h => (block, decide (h < 5))⟩

end Example

/-! ## The scanner `fmt.Sscan` for an unsigned integer -/

namespace fmt

/-- The white space of package `fmt`, its table `space`. -/
def isSpace (c : Char) : Bool :=
  let r := c.toNat
  decide ((0x09 ≤ r ∧ r ≤ 0x0d) ∨ r = 0x20 ∨ r = 0x85 ∨ r = 0xa0 ∨ r = 0x1680 ∨
    (0x2000 ≤ r ∧ r ≤ 0x200a) ∨ r = 0x2028 ∨ r = 0x2029 ∨ r = 0x202f ∨ r = 0x205f ∨
    r = 0x3000)

/-- The digits of base 10. -/
def isDecimalDigit (c : Char) : Bool := decide ('0' ≤ c ∧ c ≤ '9')

/-- The digits of base 8. -/
def isOctalDigit (c : Char) : Bool := decide ('0' ≤ c ∧ c ≤ '7')

/-- The digits of base 2. -/
def isBinaryDigit (c : Char) : Bool := decide (c = '0' ∨ c = '1')

/-- The digits of base 16, in both cases. -/
def isHexDigit (c : Char) : Bool :=
  decide (('0' ≤ c ∧ c ≤ '9') ∨ ('a' ≤ c ∧ c ≤ 'f') ∨ ('A' ≤ c ∧ c ≤ 'F'))

/-- The token that `scanUint` collects for the verb `%v`: `scanBasePrefix`
followed by `scanNumber`. The base marker after a leading zero picks the digits
that are accepted, an underscore is accepted among them, and the token ends at
the first character that is not accepted; `none` is the error of an input that
has ended or does not start with a digit. -/
def scanToken : List Char → Option (List Char)
  | [] => none
  | '0' :: rest =>
    match rest with
    | [] => some ['0']
    | c :: rest2 =>
      if c = 'b' ∨ c = 'B' then
        some ('0' :: c :: rest2.takeWhile (fun d => isBinaryDigit d || d == '_'))
      else if c = 'o' ∨ c = 'O' then
        some ('0' :: c :: rest2.takeWhile (fun d => isOctalDigit d || d == '_'))
      else if c = 'x' ∨ c = 'X' then
        some ('0' :: c :: rest2.takeWhile (fun d => isHexDigit d || d == '_'))
      else
        some ('0' :: rest.takeWhile (fun d => isOctalDigit d || d == '_'))
  | c :: rest =>
    if isDecimalDigit c || c == '_' then
      some (c :: rest.takeWhile (fun d => isDecimalDigit d || d == '_'))
    else none

end fmt

namespace strconv

/-- The helper `lower` of package `strconv`: the byte with the bit of lower case
set. -/
def lower (c : Char) : Char := Char.ofNat (c.toNat ||| 0x20)

/-- The base and the digits that `ParseUint` with base 0 reads off a string that
starts with a zero. -/
def splitBase : List Char → Nat × List Char
  | '0' :: c :: d :: rest =>
    if lower c = 'b' then (2, d :: rest)
    else if lower c = 'o' then (8, d :: rest)
    else if lower c = 'x' then (16, d :: rest)
    else (8, c :: d :: rest)
  | '0' :: rest => (8, rest)
  | s => (10, s)

/-- The value of one digit in `ParseUint`; `none` is its syntax error. -/
def digitValue (base : Nat) (c : Char) : Option Nat :=
  let d : Option Nat :=
    if '0' ≤ c ∧ c ≤ '9' then some (c.toNat - 48)
    else if 'a' ≤ lower c ∧ lower c ≤ 'z' then some ((lower c).toNat - 97 + 10)
    else none
  d.bind (fun v => if v < base then some v else none)

/-- The digit loop of `ParseUint` with base 0: underscores are skipped, every
other character has to be a digit of the base. -/
def parseDigits (base : Nat) : List Char → Nat → Option Nat
  | [], n => some n
  | c :: rest, n =>
    if c = '_' then parseDigits base rest n
    else
      match digitValue base c with
      | none => none
      | some d => parseDigits base rest (n * base + d)

/-- What `underscoreOK` has seen last. -/
inductive Saw where
  | start
  | digit
  | underscore
  | other
  deriving DecidableEq, Repr

/-- The loop of `underscoreOK` over the number proper. -/
def underscoreLoop (hex : Bool) : List Char → Saw → Bool
  | [], saw => decide (saw ≠ Saw.underscore)
  | c :: rest, saw =>
    if ('0' ≤ c ∧ c ≤ '9') ∨ (hex = true ∧ 'a' ≤ lower c ∧ lower c ≤ 'f') then
      underscoreLoop hex rest Saw.digit
    else if c = '_' then
      if saw ≠ Saw.digit then false else underscoreLoop hex rest Saw.underscore
    else if saw = Saw.underscore then false
    else underscoreLoop hex rest Saw.other

/-- The check `underscoreOK`: underscores only separate digits, a base marker
counting as a digit. -/
def underscoreOK : List Char → Bool
  | '0' :: c :: rest =>
    if lower c = 'b' ∨ lower c = 'o' ∨ lower c = 'x' then
      underscoreLoop (decide (lower c = 'x')) rest Saw.digit
    else underscoreLoop false ('0' :: c :: rest) Saw.start
  | s => underscoreLoop false s Saw.start

/-- The call `strconv.ParseUint(s, 0, 64)`; `none` stands for a returned error,
of syntax or of range. -/
def ParseUint (s : List Char) : Option Nat :=
  if s = [] then none
  else
    let bs := splitBase s
    match parseDigits bs.1 bs.2 0 with
    | none => none
    | some n =>
      if 2 ^ 64 ≤ n then none
      else if s.contains '_' && !underscoreOK s then none
      else some n

end strconv

namespace fmt

/-- The call `fmt.Sscan(str, &h)` for `h` of an unsigned 64-bit type: leading
white space is skipped, one number token is collected and converted, and what
follows the token is left unread. `none` stands for a returned error. -/
def Sscan (str : String) : Option Nat :=
  match scanToken (str.data.dropWhile isSpace) with
  | none => none
  | some tok => strconv.ParseUint tok

end fmt

namespace api

/-- A decimal integer in the plain sense: one decimal digit or more and nothing
else. -/
def isDecimalInteger (s : String) : Bool :=
  !s.data.isEmpty && s.data.all fmt.isDecimalDigit

/-- The five messages of `consensusBlocksHandler`, in the order of the source. -/
def blockLookupErrors : List String :=
  ["can't specify both id and height", "either id or height has to be provided",
   "failed to unmarshal blockid", "failed to parse block height", "block doesn't exist"]

/-- The engine was not queried: none of the calls is a lookup of a block. -/
@[reducible] def NoEngineQuery (calls : List Call) : Prop :=
  ∀ c ∈ calls, c.isEngineQuery = false

end api

namespace Example

open types api

/-- A hash parser that accepts exactly the strings of sixty-four characters and
yields the code points of the string. -/
def loadString (s : String) : Option BlockID :=
  if s.length = 64 then some (s.data.map Char.toNat) else none

/-- An environment whose height parser is `fmt.Sscan`, whose hash parser is
`loadString`, and whose engine knows `block` at the heights below 11 and under
the identifiers that start with the byte 97, at height 3. -/
def envScan : Env Nat Nat Nat Nat where
  hash := hash
  E := encoders
  blockID := fun _ => [42]
  txidString := fun h => String.join (h.map (fun b => toString b ++ "."))
  LoadString := loadString
  Sscan := fmt.Sscan
  cs := ⟨fun bid => if bid.head? = some 97 then (block, 3, true) else (Block.zero, 0, false),
    fun h => if h < 11 then (block, true) else (Block.zero, false)⟩

/-- A well-formed identifier that the engine of `envScan` knows. -/
def knownID : String := String.mk (List.replicate 64 'a')

/-- A well-formed identifier that the engine of `envScan` does not know. -/
def unknownID : String := String.mk (List.replicate 64 'b')

end Example

namespace api

open types

/-- The response body is the given block, reported at the given height, with
the IDs of its transactions attached in the order of the block. -/
def CarriesBlock {UC FCR SP TS : Type} (env : Env UC FCR SP TS) (b : Block UC FCR SP TS)
    (h : BlockHeight) (r : ConsensusBlocksGet UC FCR SP TS) : Prop :=
  r.ID = env.blockID b ∧ r.Height = h ∧ r.ParentID = b.ParentID ∧ r.Nonce = b.Nonce ∧
  r.Timestamp = b.Timestamp ∧ r.MinerPayouts = b.MinerPayouts ∧
  r.Transactions = b.Transactions ∧
  r.TransactionIDs.length = b.Transactions.length ∧
  ∀ k : Nat, r.TransactionIDs[k]? = (b.Transactions[k]?).map (fun t => t.ID env.hash env.E)

end api

namespace api

open types

/-- The keys of a map. -/
def StringMap.keys {V : Type} (m : StringMap V) : List String := m.map Prod.fst

/-- A run of assignments `m[k] = v`, in the order they are made. -/
def StringMap.setAll {V : Type} (m : StringMap V) (ps : List (String × V)) : StringMap V :=
  ps.foldl (fun m p => m.set p.1 p.2) m

section

variable {UC FCR SP TS : Type}

/-- The assignments that the inner loop of `consensusBlocksHandler` makes for one
transaction: one per position of its siacoin outputs. -/
def writesOf (env : Env UC FCR SP TS) (txn : Transaction UC FCR SP TS) :
    List (String × SiacoinOutputID) :=
  (List.range txn.SiacoinOutputs.length).map
    (fun j => (outputKey env (txn.ID env.hash env.E) j, txn.SiacoinOutputID env.hash env.E j))

/-- Transactions of the list with equal IDs have equal encodings without
signatures. -/
@[reducible] def EqualIDsEqualEncodings (env : Env UC FCR SP TS)
    (txns : List (Transaction UC FCR SP TS)) : Prop :=
  ∀ t1 ∈ txns, ∀ t2 ∈ txns, t1.ID env.hash env.E = t2.ID env.hash env.E →
    encodeNoSignatures env.E t1 = encodeNoSignatures env.E t2

/-- The textual form of the IDs of the transactions of the list is faithful:
different IDs have different texts, and no text holds the underscore that
separates it from the position in a key. -/
@[reducible] def TextualIDsFaithful (env : Env UC FCR SP TS)
    (txns : List (Transaction UC FCR SP TS)) : Prop :=
  (∀ t1 ∈ txns, ∀ t2 ∈ txns,
    env.txidString (t1.ID env.hash env.E) = env.txidString (t2.ID env.hash env.E) →
    t1.ID env.hash env.E = t2.ID env.hash env.E) ∧
  ∀ t ∈ txns, '_' ∉ (env.txidString (t.ID env.hash env.E)).data

end

end api

/-- Reading decimal digits back as a number, first digit first. -/
def decodeDecimal (cs : List Char) (start : Nat) : Nat :=
  cs.foldl (fun n c => 10 * n + (c.toNat - 48)) start

namespace types

/-- The two kinds of proof outputs of a file contract, the constants
`types.ProofValid` and `types.ProofMissed`. -/
inductive ProofStatus where
  | ProofValid
  | ProofMissed
  deriving DecidableEq, Repr

end types

namespace api

open types

/-! ## The block view (`consensusBlocksGetFromBlock`) -/

/-- The type `ConsensusBlocksGetSiacoinOutput`: a siacoin output and its ID. -/
structure ConsensusBlocksGetSiacoinOutput where
  ID : SiacoinOutputID
  Value : Currency
  UnlockHash : UnlockHash
  deriving DecidableEq, Repr

/-- The type `ConsensusBlocksGetSiafundOutput`: a siafund output and its ID. -/
structure ConsensusBlocksGetSiafundOutput where
  ID : SiafundOutputID
  Value : Currency
  UnlockHash : UnlockHash
  deriving DecidableEq, Repr

/-- The type `ConsensusBlocksGetFileContract`: a file contract and its ID. -/
structure ConsensusBlocksGetFileContract where
  ID : FileContractID
  FileSize : Nat
  FileMerkleRoot : Hash
  WindowStart : BlockHeight
  WindowEnd : BlockHeight
  Payout : Currency
  ValidProofOutputs : List ConsensusBlocksGetSiacoinOutput
  MissedProofOutputs : List ConsensusBlocksGetSiacoinOutput
  UnlockHash : UnlockHash
  RevisionNumber : Nat
  deriving DecidableEq, Repr

/-- The type `ConsensusBlocksGetTxn`: a transaction and its ID. -/
structure ConsensusBlocksGetTxn (UC FCR SP TS : Type) where
  ID : TransactionID
  SiacoinInputs : List (SiacoinInput UC)
  SiacoinOutputs : List ConsensusBlocksGetSiacoinOutput
  FileContracts : List ConsensusBlocksGetFileContract
  FileContractRevisions : List FCR
  StorageProofs : List SP
  SiafundInputs : List (SiafundInput UC)
  SiafundOutputs : List ConsensusBlocksGetSiafundOutput
  MinerFees : List Currency
  ArbitraryData : List Bytes
  TransactionSignatures : List TS
  deriving DecidableEq, Repr

/-- The second declaration of `ConsensusBlocksGet` in the source, the one with a
`Difficulty` and with `ConsensusBlocksGetTxn` transactions, which
`consensusBlocksGetFromBlock` returns. The name is taken by the first
declaration. -/
structure ConsensusBlocksGetView (UC FCR SP TS : Type) where
  ID : BlockID
  Height : BlockHeight
  ParentID : BlockID
  Nonce : Bytes
  Difficulty : Currency
  Timestamp : Nat
  MinerPayouts : List SiacoinOutput
  Transactions : List (ConsensusBlocksGetTxn UC FCR SP TS)
  deriving DecidableEq, Repr

section view

variable {UC FCR SP TS : Type}

/-- The loop over `t.SiacoinOutputs` in `consensusBlocksGetFromBlock`. -/
def viewSiacoinOutputs (env : Env UC FCR SP TS) (t : Transaction UC FCR SP TS) :
    List ConsensusBlocksGetSiacoinOutput :=
  t.SiacoinOutputs.enum.foldl
    (fun scos p => scos ++ [⟨t.SiacoinOutputID env.hash env.E p.1, p.2.Value, p.2.UnlockHash⟩])
    []

/-- The loop over `t.SiafundOutputs` in `consensusBlocksGetFromBlock`. -/
def viewSiafundOutputs (env : Env UC FCR SP TS) (t : Transaction UC FCR SP TS) :
    List ConsensusBlocksGetSiafundOutput :=
  t.SiafundOutputs.enum.foldl
    (fun sfos p => sfos ++ [⟨t.SiafundOutputID env.hash env.E p.1, p.2.Value, p.2.UnlockHash⟩])
    []

/-- The loops over the valid and the missed proof outputs of one file contract
in `consensusBlocksGetFromBlock`; `spo` is the method
`FileContractID.StorageProofOutputID`, which is outside the embedded files. -/
def viewProofOutputs (spo : FileContractID → ProofStatus → Nat → SiacoinOutputID)
    (fcid : FileContractID) (status : ProofStatus) (outputs : List SiacoinOutput) :
    List ConsensusBlocksGetSiacoinOutput :=
  outputs.enum.foldl
    (fun pos p => pos ++ [⟨spo fcid status p.1, p.2.Value, p.2.UnlockHash⟩]) []

/-- The loop over `t.FileContracts` in `consensusBlocksGetFromBlock`. -/
def viewFileContracts (env : Env UC FCR SP TS)
    (spo : FileContractID → ProofStatus → Nat → SiacoinOutputID)
    (t : Transaction UC FCR SP TS) : List ConsensusBlocksGetFileContract :=
  t.FileContracts.enum.foldl
    (fun fcos p =>
      let fcid := t.FileContractID env.hash env.E p.1
      let vpos := viewProofOutputs spo fcid ProofStatus.ProofValid p.2.ValidProofOutputs
      let mpos := viewProofOutputs spo fcid ProofStatus.ProofMissed p.2.MissedProofOutputs
      fcos ++ [⟨fcid, p.2.FileSize, p.2.FileMerkleRoot, p.2.WindowStart, p.2.WindowEnd,
        p.2.Payout, vpos, mpos, p.2.UnlockHash, p.2.RevisionNumber⟩])
    []

/-- The body of the loop over `b.Transactions` in `consensusBlocksGetFromBlock`:
the view of one transaction. -/
def viewTxn (env : Env UC FCR SP TS)
    (spo : FileContractID → ProofStatus → Nat → SiacoinOutputID)
    (t : Transaction UC FCR SP TS) : ConsensusBlocksGetTxn UC FCR SP TS :=
  let scos := viewSiacoinOutputs env t
  let sfos := viewSiafundOutputs env t
  let fcos := viewFileContracts env spo t
  ⟨t.ID env.hash env.E, t.SiacoinInputs, scos, fcos, t.FileContractRevisions, t.StorageProofs,
    t.SiafundInputs, sfos, t.MinerFees, t.ArbitraryData, t.TransactionSignatures⟩

/-- The helper `consensusBlocksGetFromBlock`. -/
def consensusBlocksGetFromBlock (env : Env UC FCR SP TS)
    (spo : FileContractID → ProofStatus → Nat → SiacoinOutputID)
    (b : Block UC FCR SP TS) (h : BlockHeight) (d : Currency) :
    ConsensusBlocksGetView UC FCR SP TS :=
  let txns := b.Transactions.foldl (fun txns t => txns ++ [viewTxn env spo t]) []
  ⟨env.blockID b, h, b.ParentID, b.Nonce, d, b.Timestamp, b.MinerPayouts, txns⟩

/-- The identifiers that a response of the block lookup holds besides the data
of the block itself: the ID of the block, the list of transaction IDs and the
values of the map of siacoin output IDs. -/
def ConsensusBlocksGet.attachedIDs (r : ConsensusBlocksGet UC FCR SP TS) : List Hash :=
  r.ID :: (r.TransactionIDs ++ r.SiacoinOutputIDs.map Prod.snd)

end view

end api

namespace Example

open types api

/-- A toy `StorageProofOutputID`: the contract ID followed by a byte for the kind
and by the position. -/
def spo (fcid : FileContractID) (status : ProofStatus) (j : Nat) : SiacoinOutputID :=
  fcid ++ [if status = ProofStatus.ProofValid then 1 else 0, j]

/-- A block with the example transaction, its re-signed copy and a third
transaction: the first two have the same ID. -/
def blockResigned : Block Nat Nat Nat Nat := ⟨[0], [0], 8, [⟨30, [9]⟩], [tx, txResigned, txOther]⟩

/-- The environment `envScan` with an engine that knows `blockResigned` at every
height. -/
def envResigned : Env Nat Nat Nat Nat :=
  { envScan with cs := ⟨fun _ => (blockResigned, 3, true), fun _ => (blockResigned, true)⟩ }

/-- The body of the response for `blockResigned` at height 5. -/
def bodyResigned : ConsensusBlocksGet Nat Nat Nat Nat :=
  ⟨[42], 5, [0], [0], 8, [⟨30, [9]⟩], [tx, txResigned, txOther],
    (collectIDs envResigned [tx, txResigned, txOther]).1,
    (collectIDs envResigned [tx, txResigned, txOther]).2⟩

/-- The body of the response for `block` at height 5. -/
def bodyBlock : ConsensusBlocksGet Nat Nat Nat Nat :=
  ⟨[42], 5, [0], [0], 7, [⟨30, [9]⟩], [tx, txOther],
    (collectIDs envScan [tx, txOther]).1, (collectIDs envScan [tx, txOther]).2⟩

end Example

namespace api

open types

/-! ## The tip summary (`consensusHandler`) -/

/-- A target, `types.Target`, kept as its byte string. -/
abbrev TargetBytes := Bytes

/-- The constants of package `types` that `consensusHandler` reports. Their
declarations are outside the embedded files. -/
structure Constants where
  BlockFrequency : BlockHeight
  BlockSizeLimit : Nat
  ExtremeFutureThreshold : Nat
  FutureThreshold : Nat
  GenesisTimestamp : Nat
  MaturityDelay : BlockHeight
  MedianTimestampWindow : Nat
  SiafundCount : Currency
  SiafundPortion : Rat
  InitialCoinbase : Nat
  MinimumCoinbase : Nat
  RootTarget : TargetBytes
  RootDepth : TargetBytes
  SiacoinPrecision : Currency
  deriving DecidableEq, Repr

/-- The response type `ConsensusGET`. -/
structure ConsensusGET where
  Synced : Bool
  Height : BlockHeight
  CurrentBlock : BlockID
  Target : TargetBytes
  Difficulty : Currency
  FoundationPrimaryUnlockHash : UnlockHash
  FoundationFailsafeUnlockHash : UnlockHash
  BlockFrequency : BlockHeight
  BlockSizeLimit : Nat
  ExtremeFutureThreshold : Nat
  FutureThreshold : Nat
  GenesisTimestamp : Nat
  MaturityDelay : BlockHeight
  MedianTimestampWindow : Nat
  SiafundCount : Currency
  SiafundPortion : Rat
  InitialCoinbase : Nat
  MinimumCoinbase : Nat
  RootTarget : TargetBytes
  RootDepth : TargetBytes
  SiacoinPrecision : Currency
  deriving DecidableEq, Repr

/-- The state of the consensus engine as `consensusHandler` reads it, besides
`BlockAtHeight`: the results of `Height()`, `ChildTarget(id)`,
`FoundationUnlockHashes()` and `Synced()`, and the method `Target.Difficulty`. -/
structure ConsensusStatus where
  Height : BlockHeight
  ChildTarget : BlockID → TargetBytes × Bool
  FoundationUnlockHashes : UnlockHash × UnlockHash
  Synced : Bool
  Difficulty : TargetBytes → Currency

/-- The outcome of `consensusHandler`: the response written and the messages
handed to `build.Critical`. -/
structure TipOutcome where
  response : Response ConsensusGET
  criticals : List String
  deriving DecidableEq, Repr

/-- The handler `API.consensusHandler`. -/
def consensusHandler {UC FCR SP TS : Type} (env : Env UC FCR SP TS) (st : ConsensusStatus)
    (K : Constants) : TipOutcome :=
  let height := st.Height
  let r := env.cs.BlockAtHeight height
  if !r.2 then
    let err := "Failed to fetch block for current height"
    ⟨.error err StatusInternalServerError, [err]⟩
  else
    let cbid := env.blockID r.1
    let currentTarget := (st.ChildTarget cbid).1
    let pf := st.FoundationUnlockHashes
    ⟨.json
      { Synced := st.Synced
        Height := height
        CurrentBlock := cbid
        Target := currentTarget
        Difficulty := st.Difficulty currentTarget
        FoundationPrimaryUnlockHash := pf.1
        FoundationFailsafeUnlockHash := pf.2
        BlockFrequency := K.BlockFrequency
        BlockSizeLimit := K.BlockSizeLimit
        ExtremeFutureThreshold := K.ExtremeFutureThreshold
        FutureThreshold := K.FutureThreshold
        GenesisTimestamp := K.GenesisTimestamp
        MaturityDelay := K.MaturityDelay
        MedianTimestampWindow := K.MedianTimestampWindow
        SiafundCount := K.SiafundCount
        SiafundPortion := K.SiafundPortion
        InitialCoinbase := K.InitialCoinbase
        MinimumCoinbase := K.MinimumCoinbase
        RootTarget := K.RootTarget
        RootDepth := K.RootDepth
        SiacoinPrecision := K.SiacoinPrecision }, []⟩

/-! ## The validation of a transaction set -/

/-- The outcome of `consensusValidateTransactionsetHandler`: the response
written and the transaction sets handed to `TryTransactionSet`, one entry per
call. -/
structure ValidateOutcome (UC FCR SP TS : Type) where
  response : Response Unit
  tried : List (List (Transaction UC FCR SP TS))

/-- The handler `API.consensusValidateTransactionsetHandler`. The JSON decoder of
the request body and the method `TryTransactionSet` of the engine are
parameters; an error is kept as its message, `err.Error()`. -/
def consensusValidateTransactionsetHandler {UC FCR SP TS : Type}
    (decode : String → Except String (List (Transaction UC FCR SP TS)))
    (TryTransactionSet : List (Transaction UC FCR SP TS) → Option String)
    (body : String) : ValidateOutcome UC FCR SP TS :=
  match decode body with
  | .error err =>
    ⟨.error ("could not decode transaction set: " ++ err) StatusBadRequest, []⟩
  | .ok txnset =>
    match TryTransactionSet txnset with
    | some err =>
      ⟨.error ("transaction set validation failed: " ++ err) StatusBadRequest, [txnset]⟩
    | none => ⟨.success, [txnset]⟩

end api

namespace Example

open types api

/-- Some values for the constants of the tip summary. -/
def constants : Constants :=
  ⟨144, 2000000, 18000, 10800, 1433600000, 144, 11, 10000, 39 / 1000, 300000, 30000,
    [0, 0, 0, 32], [255], 1000000⟩

/-- An engine at height 10, which `envScan` knows. -/
def statusKnown : ConsensusStatus :=
  ⟨10, fun bid => (bid ++ [7], true), ([1], [2]), true, fun t => t.length⟩

/-- An engine that reports the height 11, at which `envScan` has no block. -/
def statusMissing : ConsensusStatus := { statusKnown with Height := 11 }

/-- A decoder of request bodies that reads "[]" as the empty set, "[tx]" as the
example transaction and nothing else. -/
def decode (body : String) : Except String (List (Transaction Nat Nat Nat Nat)) :=
  if body = "[]" then .ok []
  else if body = "[tx]" then .ok [tx]
  else .error "invalid character"

/-- An engine that accepts the empty transaction set only. -/
def tryTransactionSet (txns : List (Transaction Nat Nat Nat Nat)) : Option String :=
  if txns = [] then none else some "transaction spends a nonexisting siacoin output"

end Example

namespace api

open types

/-! ## The subscription to consensus changes (`consensusSubscribeHandler`)

The handler starts a goroutine and waits for its result on a channel of
capacity one. The two run concurrently: the model is a transition system whose
state holds the place each of them has reached, the channel, and the events
seen by the consensus engine; a state has one successor for every one of the two
that can take its next step. -/

/-- An identifier of a consensus change, `modules.ConsensusChangeID`. -/
abbrev ConsensusChangeID := Hash

/-- The type `consensusChangeStreamer`: the encoder `e`, which wraps the
response writer. -/
structure consensusChangeStreamer (W : Type) where
  e : W
  deriving DecidableEq, Repr

/-- The constructor `newConsensusChangeStreamer(w)`. -/
def newConsensusChangeStreamer {W : Type} (w : W) : consensusChangeStreamer W := ⟨w⟩

/-- What the consensus engine sees of one subscription: the call of
`ConsensusSetSubscribe(ccs, ccid, cancel)`, its return with an error or without,
and the call of `Unsubscribe(ccs)`. -/
inductive EngineEvent (W : Type) where
  | SubscribeCalled (ccs : consensusChangeStreamer W) (ccid : ConsensusChangeID)
  | SubscribeReturned (err : Option String)
  | Unsubscribe (ccs : consensusChangeStreamer W)
  deriving DecidableEq, Repr

/-- Where `consensusSubscribeHandler` stands: before decoding the identifier,
at the receive `err := <-errCh`, or returned. -/
inductive HandlerPlace where
  | decoding
  | receiving
  | returned
  deriving DecidableEq, Repr

/-- Where the goroutine of `consensusSubscribeHandler` stands: not started,
about to call `ConsensusSetSubscribe`, inside that call, about to send its
result on `errCh`, about to call `Unsubscribe`, or finished. -/
inductive RoutinePlace where
  | absent
  | subscribing (ccid : ConsensusChangeID)
  | inCall
  | sending (err : Option String)
  | unsubscribing
  | finished
  deriving DecidableEq, Repr

/-- A state of one subscription request. -/
structure StreamState (W : Type) where
  handler : HandlerPlace
  routine : RoutinePlace
  /-- The channel `errCh`, of capacity one. -/
  errCh : List (Option String)
  /-- The events seen by the engine so far, in order. -/
  events : List (EngineEvent W)
  /-- What the handler itself has written to the response. -/
  written : List (Response Unit)
  deriving DecidableEq, Repr

/-- The state in which the handler is entered. -/
def StreamState.init {W : Type} : StreamState W := ⟨.decoding, .absent, [], [], []⟩

section stream

variable {W : Type}

/-- The next step of the handler itself, if it can take one. `decodeID` is the
method `LoadString` on the path parameter, with the message of its error. -/
def handlerStep (decodeID : String → Except String ConsensusChangeID) (idParam : String)
    (s : StreamState W) : Option (StreamState W) :=
  match s.handler with
  | .decoding =>
    match decodeID idParam with
    | .error err =>
      some { s with
        handler := .returned
        written := s.written ++ [.error ("could not decode ID: " ++ err) StatusBadRequest] }
    | .ok ccid => some { s with handler := .receiving, routine := .subscribing ccid }
  | .receiving =>
    match s.errCh with
    | [] => none
    | _ :: rest => some { s with handler := .returned, errCh := rest }
  | .returned => none

/-- The next step of the goroutine, if it can take one. `w` is the response
writer and `result` what `ConsensusSetSubscribe` returns when it returns. -/
def routineStep (w : W) (result : Option String) (s : StreamState W) :
    Option (StreamState W) :=
  match s.routine with
  | .absent => none
  | .subscribing ccid =>
    some { s with
      routine := .inCall
      events := s.events ++ [.SubscribeCalled (newConsensusChangeStreamer w) ccid] }
  | .inCall =>
    some { s with routine := .sending result, events := s.events ++ [.SubscribeReturned result] }
  | .sending err =>
    if s.errCh.length < 1 then
      some { s with routine := .unsubscribing, errCh := s.errCh ++ [err] }
    else none
  | .unsubscribing =>
    some { s with
      routine := .finished
      events := s.events ++ [.Unsubscribe (newConsensusChangeStreamer w)] }
  | .finished => none

/-- The successors of a state: one for each of the two that can move. -/
def streamSteps (decodeID : String → Except String ConsensusChangeID) (idParam : String)
    (w : W) (result : Option String) (s : StreamState W) : List (StreamState W) :=
  (handlerStep decodeID idParam s).toList ++ (routineStep w result s).toList

/-- The states that a subscription request can reach. -/
inductive StreamReachable (decodeID : String → Except String ConsensusChangeID)
    (idParam : String) (w : W) (result : Option String) : StreamState W → Prop where
  | init : StreamReachable decodeID idParam w result StreamState.init
  | next (s t : StreamState W) :
    StreamReachable decodeID idParam w result s →
    t ∈ streamSteps decodeID idParam w result s →
    StreamReachable decodeID idParam w result t

/-- The events of a whole subscription: one call of `ConsensusSetSubscribe`, its
return, one call of `Unsubscribe` with the same subscriber. -/
def fullStream (w : W) (ccid : ConsensusChangeID) (result : Option String) :
    List (EngineEvent W) :=
  [.SubscribeCalled (newConsensusChangeStreamer w) ccid, .SubscribeReturned result,
   .Unsubscribe (newConsensusChangeStreamer w)]

/-- The number of steps that handler and goroutine can still take at most. -/
def stepsLeft (s : StreamState W) : Nat :=
  (match s.handler with
    | .decoding => 6
    | .receiving => 1
    | .returned => 0) +
  (match s.routine with
    | .absent => 0
    | .subscribing _ => 4
    | .inCall => 3
    | .sending _ => 2
    | .unsubscribing => 1
    | .finished => 0)

/-- The eight states of a request whose identifier decodes to `ccid`. -/
def streamStates (w : W) (ccid : ConsensusChangeID) (result : Option String) :
    List (StreamState W) :=
  let called : List (EngineEvent W) := [.SubscribeCalled (newConsensusChangeStreamer w) ccid]
  let returned := called ++ [.SubscribeReturned result]
  [⟨.decoding, .absent, [], [], []⟩,
   ⟨.receiving, .subscribing ccid, [], [], []⟩,
   ⟨.receiving, .inCall, [], called, []⟩,
   ⟨.receiving, .sending result, [], returned, []⟩,
   ⟨.receiving, .unsubscribing, [result], returned, []⟩,
   ⟨.returned, .unsubscribing, [], returned, []⟩,
   ⟨.receiving, .finished, [result], fullStream w ccid result, []⟩,
   ⟨.returned, .finished, [], fullStream w ccid result, []⟩]

end stream

end api

namespace Example

open types api

/-- A decoder of resumption points that accepts the strings `loadString`
accepts. -/
def decodeID (s : String) : Except String ConsensusChangeID :=
  match loadString s with
  | some h => .ok h
  | none => .error "encoded value has the wrong length to be a hash"

end Example

namespace types

/-! ## Signature accessors and the siafund claim output -/

/-- The method `Transaction.RenterSignature`: the element of index 0 of the
signatures; `none` stands for the panic of an index out of range. -/
def Transaction.RenterSignature {UC FCR SP TS : Type} (t : Transaction UC FCR SP TS) :
    Option TS :=
  t.TransactionSignatures[0]?

/-- The method `Transaction.HostSignature`: the element of index 1 of the
signatures; `none` stands for the panic of an index out of range. -/
def Transaction.HostSignature {UC FCR SP TS : Type} (t : Transaction UC FCR SP TS) :
    Option TS :=
  t.TransactionSignatures[1]?

/-- Modelled from the spec: `crypto.HashObject` (crypto/hash.go is missing from
the embedded sources). The hash of an object itself: the digest of its
encoding, with nothing before it and nothing after it. -/
def HashObject {α : Type} (hash : Bytes → Hash) (marshal : α → Bytes) (obj : α) : Hash :=
  hash (marshal obj)

/-- The method `SiafundOutputID.SiaClaimOutputID`; `marshal` is the encoding of
an ID. -/
def SiaClaimOutputID (hash : Bytes → Hash) (marshal : SiafundOutputID → Bytes)
    (id : SiafundOutputID) : SiacoinOutputID :=
  HashObject hash marshal id

end types

namespace api

open types

/-! ## The streamer of consensus changes -/

/-- The method `consensusChangeStreamer.ProcessConsensusChange`, the call
`ccs.e.Encode(cc)`: the encoding of the change goes to the writer under the
encoder. The writer is kept as the bytes written to it so far, and `encode` is
the encoding of a consensus change by the encoding library. -/
def ProcessConsensusChange {CC : Type} (encode : CC → Bytes)
    (ccs : consensusChangeStreamer Bytes) (cc : CC) : consensusChangeStreamer Bytes :=
  ⟨ccs.e ++ encode cc⟩

/-- The deliveries of a list of consensus changes to a streamer, one call of
`ProcessConsensusChange` per change, in the order of the list. -/
def deliver {CC : Type} (encode : CC → Bytes) (ccs : consensusChangeStreamer Bytes)
    (changes : List CC) : consensusChangeStreamer Bytes :=
  changes.foldl (ProcessConsensusChange encode) ccs

/-- The bytes on the response of a subscription request: what the streamer has
encoded, followed by what the handler has written itself, `render` being the
wire form of such a write. -/
def responseBytes {W : Type} (render : Response Unit → Bytes) (streamed : Bytes)
    (s : StreamState W) : Bytes :=
  streamed ++ (s.written.map render).flatten

/-! ## The block view without its IDs -/

/-- A siafund output of the view without its ID: a value and an unlock hash. -/
structure ErasedSiafundOutput where
  Value : Currency
  UnlockHash : UnlockHash
  deriving DecidableEq, Repr

/-- A transaction of the view with every ID field erased. -/
structure ErasedTxn (UC FCR SP TS : Type) where
  SiacoinInputs : List (SiacoinInput UC)
  SiacoinOutputs : List SiacoinOutput
  FileContracts : List FileContract
  FileContractRevisions : List FCR
  StorageProofs : List SP
  SiafundInputs : List (SiafundInput UC)
  SiafundOutputs : List ErasedSiafundOutput
  MinerFees : List Currency
  ArbitraryData : List Bytes
  TransactionSignatures : List TS
  deriving DecidableEq, Repr

/-- Erasing the ID of a siacoin output of the view. -/
def ConsensusBlocksGetSiacoinOutput.erase (o : ConsensusBlocksGetSiacoinOutput) :
    SiacoinOutput :=
  ⟨o.Value, o.UnlockHash⟩

/-- Erasing the ID of a siafund output of the view. -/
def ConsensusBlocksGetSiafundOutput.erase (o : ConsensusBlocksGetSiafundOutput) :
    ErasedSiafundOutput :=
  ⟨o.Value, o.UnlockHash⟩

/-- Erasing the IDs of a file contract of the view and of its proof outputs. -/
def ConsensusBlocksGetFileContract.erase (c : ConsensusBlocksGetFileContract) :
    FileContract :=
  ⟨c.FileSize, c.FileMerkleRoot, c.WindowStart, c.WindowEnd, c.Payout,
    c.ValidProofOutputs.map ConsensusBlocksGetSiacoinOutput.erase,
    c.MissedProofOutputs.map ConsensusBlocksGetSiacoinOutput.erase, c.UnlockHash,
    c.RevisionNumber⟩

/-- Erasing every ID of a transaction of the view. -/
def ConsensusBlocksGetTxn.erase {UC FCR SP TS : Type} (t : ConsensusBlocksGetTxn UC FCR SP TS) :
    ErasedTxn UC FCR SP TS :=
  ⟨t.SiacoinInputs, t.SiacoinOutputs.map ConsensusBlocksGetSiacoinOutput.erase,
    t.FileContracts.map ConsensusBlocksGetFileContract.erase, t.FileContractRevisions,
    t.StorageProofs, t.SiafundInputs,
    t.SiafundOutputs.map ConsensusBlocksGetSiafundOutput.erase, t.MinerFees,
    t.ArbitraryData, t.TransactionSignatures⟩

/-- What is left of a transaction when the claim start of its siafund outputs is
forgotten. -/
def forgetClaimStart {UC FCR SP TS : Type} (t : Transaction UC FCR SP TS) :
    ErasedTxn UC FCR SP TS :=
  ⟨t.SiacoinInputs, t.SiacoinOutputs, t.FileContracts, t.FileContractRevisions,
    t.StorageProofs, t.SiafundInputs, t.SiafundOutputs.map (fun o => ⟨o.Value, o.UnlockHash⟩),
    t.MinerFees, t.ArbitraryData, t.TransactionSignatures⟩

end api

/-! ## The updater (`siad/update.go`) -/

namespace strings

/-- The pieces of a list of characters between the occurrences of a separator. -/
def splitOnChar (sep : Char) : List Char → List (List Char)
  | [] => [[]]
  | c :: cs =>
    match splitOnChar sep cs with
    | [] => [[]]
    | p :: ps => if c = sep then [] :: p :: ps else (c :: p) :: ps

/-- The call `strings.Split(s, ".")`. -/
def Split (s : String) : List String :=
  (splitOnChar '.' s.data).map String.mk

end strings

namespace strconv

/-- The digit loop of `ParseUint(s, 10, 64)` with the value read so far: `none`
is its syntax error, at a character that is no decimal digit; a value that
leaves the range of 64 bits ends the loop at once with the greatest value of
the type, whatever follows it. -/
def parseDecimal : List Char → Nat → Option Nat
  | [], n => some n
  | c :: rest, n =>
    if '0' ≤ c ∧ c ≤ '9' then
      if (2 ^ 64 - 1) / 10 + 1 ≤ n then some (2 ^ 64 - 1)
      else if 2 ^ 64 - 1 < n * 10 + (c.toNat - 48) then some (2 ^ 64 - 1)
      else parseDecimal rest (n * 10 + (c.toNat - 48))
    else none

/-- The call `strconv.Atoi(s)` with its error dropped, for an `int` of 64 bits:
an optional sign and decimal digits give their value; a syntax error gives 0,
and a value out of range gives the nearest bound of the type, also when a
character that is no digit follows the place where the range is left. -/
def Atoi (s : String) : Int :=
  match s.data with
  | [] => 0
  | c :: r =>
    let ds : List Char := if c = '+' ∨ c = '-' then r else c :: r
    if ds = [] then 0
    else
      match parseDecimal ds 0 with
      | none => 0
      | some un =>
        if c = '-' then (if 2 ^ 63 < un then -(2 ^ 63 : Int) else -(un : Int))
        else (if 2 ^ 63 ≤ un then (2 ^ 63 - 1 : Int) else (un : Int))

end strconv

namespace siad

/-- The constant `VERSION`. -/
def VERSION : String := "0.1.0"

/-- The loop of `newerVersion` from the index `i` on, over the components of the
version that are left; `none` stands for the panic of `NUMS[i]` out of range. -/
def newerVersionLoop (NUMS : List String) : List String → Nat → Option Bool
  | [], _ => some false
  | num :: rest, i =>
    let ni := strconv.Atoi num
    match NUMS[i]? with
    | none => none
    | some N =>
      let Ni := strconv.Atoi N
      if ni > Ni then some true else newerVersionLoop NUMS rest (i + 1)

/-- The function `newerVersion`. -/
def newerVersion (version : String) : Option Bool :=
  let nums := strings.Split version
  let NUMS := strings.Split VERSION
  newerVersionLoop NUMS nums 0

/-- The order of versions with three components: the first component decides,
then the second, then the third. -/
def versionGreater (a b c A B C : Int) : Bool :=
  decide (a > A ∨ (a = A ∧ (b > B ∨ (b = B ∧ c > C))))

end siad

namespace Example

open types api

/-- The transaction `txOther` with the claim start 5 on its siafund output. -/
def txClaim : Transaction Nat Nat Nat Nat :=
  { txOther with SiafundOutputs := [⟨1000, [], 5⟩] }

/-- A block holding `txClaim`. -/
def blockClaim : Block Nat Nat Nat Nat := ⟨[0], [0], 9, [], [txClaim]⟩

/-- A block holding `txOther`, which differs from `txClaim` in the claim start
only. -/
def blockNoClaim : Block Nat Nat Nat Nat := ⟨[0], [0], 9, [], [txOther]⟩

/-- A toy encoding of consensus changes, which are numbers here: the number
after a marker byte. -/
def encodeChange (cc : Nat) : Bytes := [255, cc]

end Example

namespace Example

open types api

/-- The states of a subscription for `knownID` whose engine returns the error
"unknown change", in the order of a run: after the goroutine is started, inside
`ConsensusSetSubscribe`, after its return, and with the error on the channel. -/
def errorRun : List (StreamState Nat) :=
  [⟨.receiving, .subscribing (List.replicate 64 97), [], [], []⟩,
   ⟨.receiving, .inCall, [], [.SubscribeCalled ⟨1⟩ (List.replicate 64 97)], []⟩,
   ⟨.receiving, .sending (some "unknown change"), [],
     [.SubscribeCalled ⟨1⟩ (List.replicate 64 97), .SubscribeReturned (some "unknown change")],
     []⟩,
   ⟨.receiving, .unsubscribing, [some "unknown change"],
     [.SubscribeCalled ⟨1⟩ (List.replicate 64 97), .SubscribeReturned (some "unknown change")],
     []⟩]

end Example

namespace api

open types

/-- The transaction that a transaction of the view with its IDs erased stands
for: every field as it is, and the claim start of every siafund output zero,
the value it has inside a transaction. -/
def ErasedTxn.restore {UC FCR SP TS : Type} (t : ErasedTxn UC FCR SP TS) :
    Transaction UC FCR SP TS :=
  ⟨t.SiacoinInputs, t.SiacoinOutputs, t.FileContracts, t.FileContractRevisions,
    t.StorageProofs, t.SiafundInputs, t.SiafundOutputs.map (fun o => ⟨o.Value, o.UnlockHash, 0⟩),
    t.MinerFees, t.ArbitraryData, t.TransactionSignatures⟩

/-- The rule of `SiafundOutput` for the transactions of a block: when a siafund
output is put into a transaction, its claim start equals zero. -/
@[reducible] def ClaimStartZero {UC FCR SP TS : Type} (b : Block UC FCR SP TS) : Prop :=
  ∀ t ∈ b.Transactions, ∀ o ∈ t.SiafundOutputs, o.ClaimStart = 0

end api

/-! ## Facts about the byte encodings -/

theorem uint64Bytes_length (u : Nat) : (uint64Bytes u).length = 8 := by
  simp [uint64Bytes]

theorem decodeLE_uint64Bytes (u : Nat) : decodeLE (uint64Bytes u) = u % 2 ^ 64 := by
  simp [uint64Bytes, decodeLE, List.range, List.range.loop]
  omega

theorem uint64Bytes_inj {i j : Nat} (hi : i < 2 ^ 64) (hj : j < 2 ^ 64)
    (h : uint64Bytes i = uint64Bytes j) : i = j := by
  have key := congrArg decodeLE h
  rw [decodeLE_uint64Bytes, decodeLE_uint64Bytes, Nat.mod_eq_of_lt hi,
    Nat.mod_eq_of_lt hj] at key
  exact key

namespace types

theorem NewSpecifier_length (name : String) : (NewSpecifier name).length = 16 := by
  simp [NewSpecifier, SpecifierLen]

section

variable {UC FCR SP TS : Type}

theorem encodeNoSignatures_congr (E : FieldEncoders UC FCR SP)
    {t1 t2 : Transaction UC FCR SP TS} (h : AgreeExceptSignatures t1 t2) :
    encodeNoSignatures E t1 = encodeNoSignatures E t2 := by
  obtain ⟨h1, h2, h3, h4, h5, h6, h7, h8, h9⟩ := h
  simp only [encodeNoSignatures, h1, h2, h3, h4, h5, h6, h7, h8, h9]

theorem IDHasher_written (E : FieldEncoders UC FCR SP) (t : Transaction UC FCR SP TS) :
    (t.IDHasher E).written = encodeNoSignatures E t := by
  simp [Transaction.IDHasher, Transaction.marshalSiaNoSignatures, NewHash, Hasher.Write]

theorem SiacoinOutputIDHasher_written (E : FieldEncoders UC FCR SP)
    (t : Transaction UC FCR SP TS) (i : Nat) :
    (t.SiacoinOutputIDHasher E i).written =
      SpecifierSiacoinOutput ++ encodeNoSignatures E t ++ uint64Bytes i := by
  simp [Transaction.SiacoinOutputIDHasher, Transaction.marshalSiaNoSignatures, NewHash,
    Hasher.Write, WriteUint64]

theorem SiafundOutputIDHasher_written (E : FieldEncoders UC FCR SP)
    (t : Transaction UC FCR SP TS) (i : Nat) :
    (t.SiafundOutputIDHasher E i).written =
      SpecifierSiafundOutput ++ encodeNoSignatures E t ++ uint64Bytes i := by
  simp [Transaction.SiafundOutputIDHasher, Transaction.marshalSiaNoSignatures, NewHash,
    Hasher.Write, WriteUint64]

theorem FileContractIDHasher_written (E : FieldEncoders UC FCR SP)
    (t : Transaction UC FCR SP TS) (i : Nat) :
    (t.FileContractIDHasher E i).written =
      SpecifierFileContract ++ encodeNoSignatures E t ++ uint64Bytes i := by
  simp [Transaction.FileContractIDHasher, Transaction.marshalSiaNoSignatures, NewHash,
    Hasher.Write, WriteUint64]

/-! ## Signature independence -/

/-- C1. Signature independence of the transaction ID: two transactions that
agree on every field except `TransactionSignatures` (which may differ in any
way, also in length) have the same `Transaction.ID`. -/
theorem ID_signature_independent (hash : Bytes → Hash) (E : FieldEncoders UC FCR SP)
    (tx1 tx2 : Transaction UC FCR SP TS) (h : AgreeExceptSignatures tx1 tx2) :
    tx1.ID hash E = tx2.ID hash E := by
  simp only [Transaction.ID, Hasher.Sum, IDHasher_written, encodeNoSignatures_congr E h]

/-- Witness of C1: a transaction with two signatures and the same transaction
with one other signature are different transactions with the same ID. -/
theorem ID_signature_independent_witness :
    AgreeExceptSignatures Example.tx Example.txResigned ∧
    Example.tx ≠ Example.txResigned ∧
    Example.tx.ID Example.hash Example.encoders =
      Example.txResigned.ID Example.hash Example.encoders :=
  ⟨by decide, by decide,
    ID_signature_independent Example.hash Example.encoders Example.tx Example.txResigned
      (by decide)⟩

/-- C2. Signature independence of the indexed IDs: for every index, two
transactions that agree on every field except `TransactionSignatures` have the
same `SiacoinOutputID`, the same `SiafundOutputID` and the same
`FileContractID`. -/
theorem indexed_IDs_signature_independent (hash : Bytes → Hash)
    (E : FieldEncoders UC FCR SP) (tx1 tx2 : Transaction UC FCR SP TS) (i : Nat)
    (h : AgreeExceptSignatures tx1 tx2) :
    tx1.SiacoinOutputID hash E i = tx2.SiacoinOutputID hash E i ∧
    tx1.SiafundOutputID hash E i = tx2.SiafundOutputID hash E i ∧
    tx1.FileContractID hash E i = tx2.FileContractID hash E i := by
  simp only [Transaction.SiacoinOutputID, Transaction.SiafundOutputID,
    Transaction.FileContractID, Hasher.Sum, SiacoinOutputIDHasher_written,
    SiafundOutputIDHasher_written, FileContractIDHasher_written,
    encodeNoSignatures_congr E h, and_self]

/-- Witness of C2: the example transaction and its re-signed copy, at index 1. -/
theorem indexed_IDs_signature_independent_witness :
    AgreeExceptSignatures Example.tx Example.txResigned ∧
    Example.tx.TransactionSignatures ≠ Example.txResigned.TransactionSignatures ∧
    (Example.tx.SiacoinOutputID Example.hash Example.encoders 1 =
      Example.txResigned.SiacoinOutputID Example.hash Example.encoders 1 ∧
    Example.tx.SiafundOutputID Example.hash Example.encoders 1 =
      Example.txResigned.SiafundOutputID Example.hash Example.encoders 1 ∧
    Example.tx.FileContractID Example.hash Example.encoders 1 =
      Example.txResigned.FileContractID Example.hash Example.encoders 1) :=
  ⟨by decide, by decide,
    indexed_IDs_signature_independent Example.hash Example.encoders Example.tx
      Example.txResigned 1 (by decide)⟩

/-! ## The pre-images of the identifiers -/

theorem middle_segment (S enc u : Bytes) (hS : S.length = 16) (hu : u.length = 8) :
    ((S ++ enc ++ u).drop 16).take ((S ++ enc ++ u).length - 24) = enc := by
  have h1 : (S ++ enc ++ u).drop 16 = enc ++ u := by
    rw [List.append_assoc, ← hS, List.drop_left]
  have h2 : (S ++ enc ++ u).length - 24 = enc.length := by
    simp only [List.length_append, hS, hu]; omega
  rw [h1, h2, List.take_left]

theorem first_segment (S enc u : Bytes) (hS : S.length = 16) :
    (S ++ enc ++ u).take 16 = S := by
  rw [List.append_assoc, ← hS, List.take_left]

theorem last_segment (S enc u : Bytes) (hu : u.length = 8) :
    (S ++ enc ++ u).drop ((S ++ enc ++ u).length - 8) = u := by
  have h2 : (S ++ enc ++ u).length - 8 = (S ++ enc).length := by
    simp only [List.length_append, hu]; omega
  rw [h2, List.drop_left]

theorem front_segment (S enc u : Bytes) (hu : u.length = 8) :
    (S ++ enc ++ u).take ((S ++ enc ++ u).length - 8) = S ++ enc := by
  have h2 : (S ++ enc ++ u).length - 8 = (S ++ enc).length := by
    simp only [List.length_append, hu]; omega
  rw [h2, List.take_left]

/-- C3. Pre-image of the indexed IDs: for every transaction and every index,
`SiacoinOutputID`, `SiafundOutputID` and `FileContractID` are the hash of the
sixteen-byte specifier of their own kind ("siacoin output", "siafund output",
"file contract"), followed by the encoding of the transaction without its
signatures, followed by the index as eight bytes that read back as the index
(as a `uint64`); the three differ in the specifier only. -/
theorem indexed_ID_preimage (hash : Bytes → Hash) (E : FieldEncoders UC FCR SP)
    (tx : Transaction UC FCR SP TS) (i : Nat) :
    tx.SiacoinOutputID hash E i =
      hash (NewSpecifier "siacoin output" ++ encodeNoSignatures E tx ++ uint64Bytes i) ∧
    tx.SiafundOutputID hash E i =
      hash (NewSpecifier "siafund output" ++ encodeNoSignatures E tx ++ uint64Bytes i) ∧
    tx.FileContractID hash E i =
      hash (NewSpecifier "file contract" ++ encodeNoSignatures E tx ++ uint64Bytes i) ∧
    (NewSpecifier "siacoin output").length = 16 ∧
    (NewSpecifier "siafund output").length = 16 ∧
    (NewSpecifier "file contract").length = 16 ∧
    (uint64Bytes i).length = 8 ∧ decodeLE (uint64Bytes i) = i % 2 ^ 64 := by
  refine ⟨?_, ?_, ?_, NewSpecifier_length _, NewSpecifier_length _, NewSpecifier_length _,
    uint64Bytes_length i, decodeLE_uint64Bytes i⟩
  · simp only [Transaction.SiacoinOutputID, Hasher.Sum, SiacoinOutputIDHasher_written]; rfl
  · simp only [Transaction.SiafundOutputID, Hasher.Sum, SiafundOutputIDHasher_written]; rfl
  · simp only [Transaction.FileContractID, Hasher.Sum, FileContractIDHasher_written]; rfl

/-- C4. Pre-image of the transaction ID: `Transaction.ID` is the hash of the
encoding of the transaction without its signatures, nothing before it and
nothing after it; and what is hashed for the ID is exactly the middle part of
what is hashed for every indexed ID of the same transaction, namely what is
left after the first sixteen and before the last eight bytes. -/
theorem ID_preimage (hash : Bytes → Hash) (E : FieldEncoders UC FCR SP)
    (tx : Transaction UC FCR SP TS) :
    tx.ID hash E = hash (encodeNoSignatures E tx) ∧
    (tx.IDHasher E).written = encodeNoSignatures E tx ∧
    ∀ i : Nat,
      (((tx.SiacoinOutputIDHasher E i).written.drop 16).take
          ((tx.SiacoinOutputIDHasher E i).written.length - 24) = (tx.IDHasher E).written) ∧
      (((tx.SiafundOutputIDHasher E i).written.drop 16).take
          ((tx.SiafundOutputIDHasher E i).written.length - 24) = (tx.IDHasher E).written) ∧
      (((tx.FileContractIDHasher E i).written.drop 16).take
          ((tx.FileContractIDHasher E i).written.length - 24) = (tx.IDHasher E).written) := by
  refine ⟨?_, IDHasher_written E tx, fun i => ⟨?_, ?_, ?_⟩⟩
  · simp only [Transaction.ID, Hasher.Sum, IDHasher_written]
  · rw [SiacoinOutputIDHasher_written, IDHasher_written]
    exact middle_segment _ _ _ (NewSpecifier_length _) (uint64Bytes_length i)
  · rw [SiafundOutputIDHasher_written, IDHasher_written]
    exact middle_segment _ _ _ (NewSpecifier_length _) (uint64Bytes_length i)
  · rw [FileContractIDHasher_written, IDHasher_written]
    exact middle_segment _ _ _ (NewSpecifier_length _) (uint64Bytes_length i)

/-! ## Domain separation and index sensitivity -/

theorem specifiers_of_indexed_IDs_distinct :
    SpecifierSiacoinOutput ≠ SpecifierSiafundOutput ∧
    SpecifierSiafundOutput ≠ SpecifierFileContract ∧
    SpecifierSiacoinOutput ≠ SpecifierFileContract := by decide

theorem ne_of_take_ne {a b : Bytes} {n : Nat} (h : a.take n ≠ b.take n) : a ≠ b :=
  fun e => h (by rw [e])

/-- C5. Domain separation: for every transaction and index, the hash pre-images
of `SiacoinOutputID`, `SiafundOutputID` and `FileContractID` differ pairwise
within their first sixteen bytes, hence are pairwise distinct, and the three IDs
are pairwise distinct whenever the digest function has no collision among these
three pre-images. -/
theorem domain_separation (hash : Bytes → Hash) (E : FieldEncoders UC FCR SP)
    (tx : Transaction UC FCR SP TS) (i : Nat) :
    ((tx.SiacoinOutputIDHasher E i).written.take 16 ≠
        (tx.SiafundOutputIDHasher E i).written.take 16 ∧
      (tx.SiafundOutputIDHasher E i).written.take 16 ≠
        (tx.FileContractIDHasher E i).written.take 16 ∧
      (tx.SiacoinOutputIDHasher E i).written.take 16 ≠
        (tx.FileContractIDHasher E i).written.take 16) ∧
    ((tx.SiacoinOutputIDHasher E i).written ≠ (tx.SiafundOutputIDHasher E i).written ∧
      (tx.SiafundOutputIDHasher E i).written ≠ (tx.FileContractIDHasher E i).written ∧
      (tx.SiacoinOutputIDHasher E i).written ≠ (tx.FileContractIDHasher E i).written) ∧
    (CollisionFree hash [(tx.SiacoinOutputIDHasher E i).written,
        (tx.SiafundOutputIDHasher E i).written, (tx.FileContractIDHasher E i).written] →
      tx.SiacoinOutputID hash E i ≠ tx.SiafundOutputID hash E i ∧
      tx.SiafundOutputID hash E i ≠ tx.FileContractID hash E i ∧
      tx.SiacoinOutputID hash E i ≠ tx.FileContractID hash E i) := by
  have hd := specifiers_of_indexed_IDs_distinct
  have ha : (tx.SiacoinOutputIDHasher E i).written.take 16 = SpecifierSiacoinOutput := by
    rw [SiacoinOutputIDHasher_written]; exact first_segment _ _ _ (NewSpecifier_length _)
  have hb : (tx.SiafundOutputIDHasher E i).written.take 16 = SpecifierSiafundOutput := by
    rw [SiafundOutputIDHasher_written]; exact first_segment _ _ _ (NewSpecifier_length _)
  have hc : (tx.FileContractIDHasher E i).written.take 16 = SpecifierFileContract := by
    rw [FileContractIDHasher_written]; exact first_segment _ _ _ (NewSpecifier_length _)
  have h16 : (tx.SiacoinOutputIDHasher E i).written.take 16 ≠
        (tx.SiafundOutputIDHasher E i).written.take 16 ∧
      (tx.SiafundOutputIDHasher E i).written.take 16 ≠
        (tx.FileContractIDHasher E i).written.take 16 ∧
      (tx.SiacoinOutputIDHasher E i).written.take 16 ≠
        (tx.FileContractIDHasher E i).written.take 16 := by
    rw [ha, hb, hc]; exact hd
  have hne := And.intro (ne_of_take_ne h16.1)
    (And.intro (ne_of_take_ne h16.2.1) (ne_of_take_ne h16.2.2))
  refine ⟨h16, hne, fun hcf => ⟨fun e => hne.1 ?_, fun e => hne.2.1 ?_, fun e => hne.2.2 ?_⟩⟩
  · exact hcf _ (by simp) _ (by simp) e
  · exact hcf _ (by simp) _ (by simp) e
  · exact hcf _ (by simp) _ (by simp) e

/-- Witness of C5: the toy digest has no collision among the three pre-images of
the example transaction at index 1, and the three IDs differ. -/
theorem domain_separation_witness :
    CollisionFree Example.hash [(Example.tx.SiacoinOutputIDHasher Example.encoders 1).written,
        (Example.tx.SiafundOutputIDHasher Example.encoders 1).written,
        (Example.tx.FileContractIDHasher Example.encoders 1).written] ∧
    (Example.tx.SiacoinOutputID Example.hash Example.encoders 1 ≠
        Example.tx.SiafundOutputID Example.hash Example.encoders 1 ∧
      Example.tx.SiafundOutputID Example.hash Example.encoders 1 ≠
        Example.tx.FileContractID Example.hash Example.encoders 1 ∧
      Example.tx.SiacoinOutputID Example.hash Example.encoders 1 ≠
        Example.tx.FileContractID Example.hash Example.encoders 1) :=
  ⟨by decide,
    (domain_separation Example.hash Example.encoders Example.tx 1).2.2 (by decide)⟩

/-- C7. Specifier distinctness: the eleven specifier constants are pairwise
distinct, each is sixteen bytes wide and is `NewSpecifier` of its name, and
every name is ASCII of at most sixteen bytes, so that the specifier starts with
the whole name and nothing of it is cut off; the names themselves are pairwise
distinct and hold no zero byte, so the zero filling cannot make two of them
meet. -/
theorem specifiers_distinct :
    allSpecifiers.Pairwise (fun a b => a ≠ b) ∧
    allSpecifiers = specifierNames.map NewSpecifier ∧
    allSpecifiers.length = 11 ∧
    (∀ s ∈ allSpecifiers, s.length = 16) ∧
    (∀ n ∈ specifierNames, isASCII n = true ∧ (stringBytes n).length ≤ 16 ∧
      (NewSpecifier n).take (stringBytes n).length = stringBytes n ∧
      0 ∉ stringBytes n) ∧
    (specifierNames.map stringBytes).Pairwise (fun a b => a ≠ b) := by
  refine ⟨by decide, rfl, rfl, by decide, by decide, by decide⟩

theorem differ_of_index_ne (S enc : Bytes) {i j : Nat} (hi : i < 2 ^ 64) (hj : j < 2 ^ 64)
    (hij : i ≠ j) :
    DifferOnlyInLast8 (S ++ enc ++ uint64Bytes i) (S ++ enc ++ uint64Bytes j) := by
  have hu : uint64Bytes i ≠ uint64Bytes j := fun e => hij (uint64Bytes_inj hi hj e)
  refine ⟨?_, ?_, ?_, ?_⟩
  · simp only [List.length_append, uint64Bytes_length]
  · intro e
    exact hu (List.append_cancel_left e)
  · rw [front_segment _ _ _ (uint64Bytes_length i), front_segment _ _ _ (uint64Bytes_length j)]
  · rw [last_segment _ _ _ (uint64Bytes_length i), last_segment _ _ _ (uint64Bytes_length j)]
    exact hu

/-- C6. Index sensitivity: for every transaction and all `uint64` indices
`i ≠ j`, the hash pre-images of `SiacoinOutputID` at `i` and at `j` have the same
length and differ, but only in their last eight bytes, so the two IDs differ
whenever the digest function does not collide on these two pre-images; the same
holds for `SiafundOutputID` and for `FileContractID`. -/
theorem index_sensitivity (hash : Bytes → Hash) (E : FieldEncoders UC FCR SP)
    (tx : Transaction UC FCR SP TS) (i j : Nat) (hi : i < 2 ^ 64) (hj : j < 2 ^ 64)
    (hij : i ≠ j) :
    (DifferOnlyInLast8 (tx.SiacoinOutputIDHasher E i).written
        (tx.SiacoinOutputIDHasher E j).written ∧
      (CollisionFree hash [(tx.SiacoinOutputIDHasher E i).written,
          (tx.SiacoinOutputIDHasher E j).written] →
        tx.SiacoinOutputID hash E i ≠ tx.SiacoinOutputID hash E j)) ∧
    (DifferOnlyInLast8 (tx.SiafundOutputIDHasher E i).written
        (tx.SiafundOutputIDHasher E j).written ∧
      (CollisionFree hash [(tx.SiafundOutputIDHasher E i).written,
          (tx.SiafundOutputIDHasher E j).written] →
        tx.SiafundOutputID hash E i ≠ tx.SiafundOutputID hash E j)) ∧
    (DifferOnlyInLast8 (tx.FileContractIDHasher E i).written
        (tx.FileContractIDHasher E j).written ∧
      (CollisionFree hash [(tx.FileContractIDHasher E i).written,
          (tx.FileContractIDHasher E j).written] →
        tx.FileContractID hash E i ≠ tx.FileContractID hash E j)) := by
  have h1 : DifferOnlyInLast8 (tx.SiacoinOutputIDHasher E i).written
      (tx.SiacoinOutputIDHasher E j).written := by
    rw [SiacoinOutputIDHasher_written, SiacoinOutputIDHasher_written]
    exact differ_of_index_ne _ _ hi hj hij
  have h2 : DifferOnlyInLast8 (tx.SiafundOutputIDHasher E i).written
      (tx.SiafundOutputIDHasher E j).written := by
    rw [SiafundOutputIDHasher_written, SiafundOutputIDHasher_written]
    exact differ_of_index_ne _ _ hi hj hij
  have h3 : DifferOnlyInLast8 (tx.FileContractIDHasher E i).written
      (tx.FileContractIDHasher E j).written := by
    rw [FileContractIDHasher_written, FileContractIDHasher_written]
    exact differ_of_index_ne _ _ hi hj hij
  exact ⟨⟨h1, fun hcf e => h1.2.1 (hcf _ (by simp) _ (by simp) e)⟩,
    ⟨h2, fun hcf e => h2.2.1 (hcf _ (by simp) _ (by simp) e)⟩,
    ⟨h3, fun hcf e => h3.2.1 (hcf _ (by simp) _ (by simp) e)⟩⟩

/-- Witness of C6: the indices 0 and 1 on the example transaction. -/
theorem index_sensitivity_witness :
    (0 < 2 ^ 64 ∧ 1 < 2 ^ 64 ∧ 0 ≠ 1) ∧
    CollisionFree Example.hash [(Example.tx.SiacoinOutputIDHasher Example.encoders 0).written,
      (Example.tx.SiacoinOutputIDHasher Example.encoders 1).written] ∧
    DifferOnlyInLast8 (Example.tx.SiacoinOutputIDHasher Example.encoders 0).written
      (Example.tx.SiacoinOutputIDHasher Example.encoders 1).written ∧
    Example.tx.SiacoinOutputID Example.hash Example.encoders 0 ≠
      Example.tx.SiacoinOutputID Example.hash Example.encoders 1 :=
  ⟨⟨by decide, by decide, by decide⟩, by decide,
    (index_sensitivity Example.hash Example.encoders Example.tx 0 1 (by decide) (by decide)
      (by decide)).1.1,
    (index_sensitivity Example.hash Example.encoders Example.tx 0 1 (by decide) (by decide)
      (by decide)).1.2 (by decide)⟩

/-! ## The sum of the siacoin outputs -/

theorem foldl_Add_eq_sum {α : Type} (f : α → Currency) (l : List α) (a : Currency) :
    l.foldl (fun sum x => Currency.Add sum (f x)) a = a + (l.map f).sum := by
  induction l generalizing a with
  | nil => simp
  | cons x xs ih =>
    rw [List.foldl_cons, ih]
    simp only [Currency.Add, List.map_cons, List.sum_cons]
    exact Nat.add_assoc _ _ _

theorem SiacoinOutputSum_eq (t : Transaction UC FCR SP TS) :
    t.SiacoinOutputSum = (t.SiacoinOutputs.map (fun sco => sco.Value)).sum +
      (t.FileContracts.map (fun fc => fc.Payout)).sum + t.MinerFees.sum := by
  have h3 := foldl_Add_eq_sum (fun fee : Currency => fee) t.MinerFees
  simp only [List.map_id'] at h3
  simp only [Transaction.SiacoinOutputSum, foldl_Add_eq_sum, h3, Nat.zero_add]

/-- C8. The method `SiacoinOutputSum` is the exact sum, over the natural
numbers, of the values of the siacoin outputs, the payouts of the file contracts
and the miner fees; it is 0 for a transaction with none of the three, and 355
for a transaction with siacoin outputs of 100 and 250, one miner fee of 5 and no
file contract, whatever the other fields hold. -/
theorem SiacoinOutputSum_exact :
    (∀ t : Transaction UC FCR SP TS,
      t.SiacoinOutputSum = (t.SiacoinOutputs.map (fun sco => sco.Value)).sum +
        (t.FileContracts.map (fun fc => fc.Payout)).sum + t.MinerFees.sum) ∧
    (∀ (ins : List (SiacoinInput UC)) (revs : List FCR) (sps : List SP)
        (sfis : List (SiafundInput UC)) (sfos : List SiafundOutput) (ad : List Bytes)
        (sigs : List TS),
      Transaction.SiacoinOutputSum ⟨ins, [], [], revs, sps, sfis, sfos, [], ad, sigs⟩ = 0) ∧
    (∀ (ins : List (SiacoinInput UC)) (revs : List FCR) (sps : List SP)
        (sfis : List (SiafundInput UC)) (sfos : List SiafundOutput) (ad : List Bytes)
        (sigs : List TS) (u1 u2 : UnlockHash),
      Transaction.SiacoinOutputSum
        ⟨ins, [⟨100, u1⟩, ⟨250, u2⟩], [], revs, sps, sfis, sfos, [5], ad, sigs⟩ = 355) :=
  ⟨SiacoinOutputSum_eq, fun _ _ _ _ _ _ _ => rfl, fun _ _ _ _ _ _ _ _ _ => rfl⟩

/-- C9. The method `SiacoinOutputSum` reads nothing but the siacoin outputs, the
payouts of the file contracts and the miner fees: two transactions with the same
siacoin outputs, the same miner fees and file contracts of the same payouts
(which holds in particular when their file contracts are the same) have the
same sum, whatever their other fields and whatever the valid and missed proof
outputs of their file contracts are. -/
theorem SiacoinOutputSum_ignores_other_fields (t1 t2 : Transaction UC FCR SP TS)
    (hsco : t1.SiacoinOutputs = t2.SiacoinOutputs)
    (hfc : t1.FileContracts.map (fun fc => fc.Payout) =
      t2.FileContracts.map (fun fc => fc.Payout))
    (hfee : t1.MinerFees = t2.MinerFees) :
    t1.SiacoinOutputSum = t2.SiacoinOutputSum := by
  rw [SiacoinOutputSum_eq, SiacoinOutputSum_eq, hsco, hfc, hfee]

/-- Witness of C9: two transactions that differ in every field that is not
summed, also in the proof outputs of their file contract, and have the sum 395. -/
theorem SiacoinOutputSum_ignores_other_fields_witness :
    (Example.txOther.SiacoinOutputs = Example.txOther2.SiacoinOutputs ∧
      Example.txOther.FileContracts.map (fun fc => fc.Payout) =
        Example.txOther2.FileContracts.map (fun fc => fc.Payout) ∧
      Example.txOther.MinerFees = Example.txOther2.MinerFees) ∧
    Example.txOther.FileContracts ≠ Example.txOther2.FileContracts ∧
    Example.txOther.StorageProofs ≠ Example.txOther2.StorageProofs ∧
    Example.txOther.SiafundOutputs ≠ Example.txOther2.SiafundOutputs ∧
    Example.txOther2.SiacoinOutputSum = 395 ∧
    Example.txOther.SiacoinOutputSum = Example.txOther2.SiacoinOutputSum :=
  ⟨by decide, by decide, by decide, by decide, by decide,
    SiacoinOutputSum_ignores_other_fields Example.txOther Example.txOther2
      (by decide) (by decide) (by decide)⟩

end

end types

namespace api

open types

/-! ## The block lookup: the two selectors exclude each other -/

section

variable {UC FCR SP TS : Type}

/-- C10. Block lookup selector mutual exclusion: for every request, when both
`id` and `height` are non-empty the handler answers the bad-request error
"can't specify both id and height", and when both are empty it answers the
bad-request error "either id or height has to be provided"; in both cases it
has made no call at all, so no selector was parsed and the consensus engine was
not queried, whatever the parsers would have said about the two strings. -/
theorem consensusBlocksHandler_selectors_exclusive (env : Env UC FCR SP TS)
    (id height : String) :
    (id ≠ "" ∧ height ≠ "" →
      consensusBlocksHandler env id height =
        ⟨.error "can't specify both id and height" StatusBadRequest, []⟩) ∧
    (id = "" ∧ height = "" →
      consensusBlocksHandler env id height =
        ⟨.error "either id or height has to be provided" StatusBadRequest, []⟩) := by
  constructor
  · intro h
    simp only [consensusBlocksHandler, if_pos h]
  · intro h
    have hn : ¬ (id ≠ "" ∧ height ≠ "") := fun hb => hb.1 h.1
    simp only [consensusBlocksHandler, if_neg hn, if_pos h]

/-- Witness of C10: a request with a malformed id and the height "10", in an
environment whose hash parser rejects every string, and a request with neither
selector. -/
theorem consensusBlocksHandler_selectors_exclusive_witness :
    Example.env.LoadString "abc" = none ∧
    consensusBlocksHandler Example.env "abc" "10" =
      ⟨.error "can't specify both id and height" 400, []⟩ ∧
    consensusBlocksHandler Example.env "" "" =
      ⟨.error "either id or height has to be provided" 400, []⟩ :=
  ⟨rfl,
    (consensusBlocksHandler_selectors_exclusive Example.env "abc" "10").1
      ⟨by decide, by decide⟩,
    (consensusBlocksHandler_selectors_exclusive Example.env "" "").2 ⟨rfl, rfl⟩⟩

end

end api

namespace api

open types

/-! ## The block lookup with one selector -/

section

variable {UC FCR SP TS : Type}

theorem handler_by_id (env : Env UC FCR SP TS) (id : String) (hid : id ≠ "") :
    consensusBlocksHandler env id "" =
      match env.LoadString id with
      | none => ⟨.error "failed to unmarshal blockid" StatusBadRequest, [.LoadString id]⟩
      | some bid =>
        if (env.cs.BlockByID bid).2.2 = false then
          ⟨.error "block doesn't exist" StatusBadRequest, [.LoadString id, .BlockByID bid]⟩
        else
          ⟨.json ⟨env.blockID (env.cs.BlockByID bid).1, (env.cs.BlockByID bid).2.1,
              (env.cs.BlockByID bid).1.ParentID, (env.cs.BlockByID bid).1.Nonce,
              (env.cs.BlockByID bid).1.Timestamp, (env.cs.BlockByID bid).1.MinerPayouts,
              (env.cs.BlockByID bid).1.Transactions,
              (collectIDs env (env.cs.BlockByID bid).1.Transactions).1,
              (collectIDs env (env.cs.BlockByID bid).1.Transactions).2⟩,
            [.LoadString id, .BlockByID bid]⟩ := by
  have h1 : ¬ (id ≠ "" ∧ ("" : String) ≠ "") := fun h => h.2 rfl
  have h2 : ¬ (id = "" ∧ ("" : String) = "") := fun h => hid h.1
  simp only [consensusBlocksHandler, if_neg h1, if_neg h2, handleByID, if_pos hid]
  cases hL : env.LoadString id with
  | none => simp [hid]
  | some bid =>
    cases hf : (env.cs.BlockByID bid).2.2 <;> simp [handleByHeight, hf, hid]

theorem handler_by_height (env : Env UC FCR SP TS) (height : String) (hh : height ≠ "") :
    consensusBlocksHandler env "" height =
      match env.Sscan height with
      | none => ⟨.error "failed to parse block height" StatusBadRequest, [.Sscan height]⟩
      | some h =>
        if (env.cs.BlockAtHeight h).2 = false then
          ⟨.error "block doesn't exist" StatusBadRequest, [.Sscan height, .BlockAtHeight h]⟩
        else
          ⟨.json ⟨env.blockID (env.cs.BlockAtHeight h).1, h,
              (env.cs.BlockAtHeight h).1.ParentID, (env.cs.BlockAtHeight h).1.Nonce,
              (env.cs.BlockAtHeight h).1.Timestamp, (env.cs.BlockAtHeight h).1.MinerPayouts,
              (env.cs.BlockAtHeight h).1.Transactions,
              (collectIDs env (env.cs.BlockAtHeight h).1.Transactions).1,
              (collectIDs env (env.cs.BlockAtHeight h).1.Transactions).2⟩,
            [.Sscan height, .BlockAtHeight h]⟩ := by
  have h1 : ¬ (("" : String) ≠ "" ∧ height ≠ "") := fun h => h.1 rfl
  have h2 : ¬ (("" : String) = "" ∧ height = "") := fun h => hh h.2
  simp only [consensusBlocksHandler, if_neg h1, if_neg h2, handleByID, handleByHeight, if_pos hh]
  cases hL : env.Sscan height with
  | none => simp [hh]
  | some h =>
    cases hf : (env.cs.BlockAtHeight h).2 <;> simp [hf, hh]

end

end api

namespace api

open types

section

variable {UC FCR SP TS : Type}

theorem collectIDs_fst_aux (env : Env UC FCR SP TS) (txns : List (Transaction UC FCR SP TS))
    (acc : List TransactionID × StringMap SiacoinOutputID) :
    (txns.foldl
      (fun acc txn =>
        (acc.1 ++ [txn.ID env.hash env.E],
          addSiacoinOutputIDs env txn (txn.ID env.hash env.E) acc.2)) acc).1 =
      acc.1 ++ txns.map (fun t => t.ID env.hash env.E) := by
  induction txns generalizing acc with
  | nil => simp
  | cons t ts ih => simp [List.foldl_cons, ih]

theorem collectIDs_fst (env : Env UC FCR SP TS) (txns : List (Transaction UC FCR SP TS)) :
    (collectIDs env txns).1 = txns.map (fun t => t.ID env.hash env.E) := by
  simpa [collectIDs] using collectIDs_fst_aux env txns ([], [])

theorem carriesBlock_body (env : Env UC FCR SP TS) (b : Block UC FCR SP TS) (h : BlockHeight) :
    CarriesBlock env b h ⟨env.blockID b, h, b.ParentID, b.Nonce, b.Timestamp, b.MinerPayouts,
      b.Transactions, (collectIDs env b.Transactions).1, (collectIDs env b.Transactions).2⟩ := by
  refine ⟨rfl, rfl, rfl, rfl, rfl, rfl, rfl, ?_, ?_⟩
  · simp [collectIDs_fst]
  · intro k
    simp [collectIDs_fst]

/-- C11. Unknown block is a client error: for a request with exactly one
selector that parses, when the engine reports the block as not found
(`BlockByID` for an id, `BlockAtHeight` for a height) the response is the
bad-request error "block doesn't exist" and nothing else is written; when the
engine reports it found, the response is a JSON body and no error. -/
theorem unknown_block_is_client_error (env : Env UC FCR SP TS) (id height : String) :
    (∀ bid : BlockID, id ≠ "" → height = "" → env.LoadString id = some bid →
      ((env.cs.BlockByID bid).2.2 = false →
        (consensusBlocksHandler env id height).response =
          .error "block doesn't exist" StatusBadRequest) ∧
      ((env.cs.BlockByID bid).2.2 = true →
        ∃ body, (consensusBlocksHandler env id height).response = .json body)) ∧
    (∀ h : BlockHeight, id = "" → height ≠ "" → env.Sscan height = some h →
      ((env.cs.BlockAtHeight h).2 = false →
        (consensusBlocksHandler env id height).response =
          .error "block doesn't exist" StatusBadRequest) ∧
      ((env.cs.BlockAtHeight h).2 = true →
        ∃ body, (consensusBlocksHandler env id height).response = .json body)) := by
  constructor
  · intro bid hid hh hL
    subst hh
    rw [handler_by_id env id hid, hL]
    constructor
    · intro hf
      simp [hf]
    · intro hf
      simp [hf]
  · intro h hid hh hL
    subst hid
    rw [handler_by_height env height hh, hL]
    constructor
    · intro hf
      simp [hf]
    · intro hf
      simp [hf]

/-- Witness of C11: the height 999999999 on a chain of eleven blocks and an
identifier the engine does not know give "block doesn't exist"; the height 3
and a known identifier give a JSON body. -/
theorem unknown_block_is_client_error_witness :
    ((consensusBlocksHandler Example.envScan "" "999999999").response =
        .error "block doesn't exist" 400 ∧
      ∃ body, (consensusBlocksHandler Example.envScan "" "3").response = .json body) ∧
    ((consensusBlocksHandler Example.envScan Example.unknownID "").response =
        .error "block doesn't exist" 400 ∧
      ∃ body, (consensusBlocksHandler Example.envScan Example.knownID "").response =
        .json body) :=
  ⟨⟨((unknown_block_is_client_error Example.envScan "" "999999999").2 999999999 rfl
        (by decide) (by decide)).1 (by decide),
      ((unknown_block_is_client_error Example.envScan "" "3").2 3 rfl
        (by decide) (by decide)).2 (by decide)⟩,
    ⟨((unknown_block_is_client_error Example.envScan Example.unknownID "").1
        (List.replicate 64 98) (by decide) rfl (by decide)).1 (by decide),
      ((unknown_block_is_client_error Example.envScan Example.knownID "").1
        (List.replicate 64 97) (by decide) rfl (by decide)).2 (by decide)⟩⟩

end

end api

namespace api

open types

section

variable {UC FCR SP TS : Type}

theorem handler_cases (env : Env UC FCR SP TS) (id height : String) :
    (id ≠ "" ∧ height ≠ "" ∧ consensusBlocksHandler env id height =
        ⟨.error "can't specify both id and height" StatusBadRequest, []⟩) ∨
    (id = "" ∧ height = "" ∧ consensusBlocksHandler env id height =
        ⟨.error "either id or height has to be provided" StatusBadRequest, []⟩) ∨
    (id ≠ "" ∧ height = "") ∨ (id = "" ∧ height ≠ "") := by
  by_cases hid : id = "" <;> by_cases hh : height = ""
  · right; left
    refine ⟨hid, hh, ?_⟩
    have hn : ¬ (id ≠ "" ∧ height ≠ "") := fun hb => hb.1 hid
    simp only [consensusBlocksHandler, if_neg hn, if_pos (And.intro hid hh)]
  · right; right; right
    exact ⟨hid, hh⟩
  · right; right; left
    exact ⟨hid, hh⟩
  · left
    refine ⟨hid, hh, ?_⟩
    simp only [consensusBlocksHandler, if_pos (And.intro hid hh)]

/-- C12, as amended. Every error that the block lookup reports is a bad request
whose message is one of the five messages of the handler; with only `id`
supplied and `LoadString` rejecting it the outcome is "failed to unmarshal
blockid", with only `height` supplied and `fmt.Sscan` failing on it the outcome
is "failed to parse block height", and in both cases the only call made is the
parser, so the engine is not queried. -/
theorem block_lookup_errors_classified (env : Env UC FCR SP TS) (id height : String) :
    (∀ (msg : String) (status : Nat),
      (consensusBlocksHandler env id height).response = .error msg status →
      status = StatusBadRequest ∧ msg ∈ blockLookupErrors) ∧
    (id ≠ "" → height = "" → env.LoadString id = none →
      consensusBlocksHandler env id height =
        ⟨.error "failed to unmarshal blockid" StatusBadRequest, [.LoadString id]⟩ ∧
      NoEngineQuery (consensusBlocksHandler env id height).calls) ∧
    (id = "" → height ≠ "" → env.Sscan height = none →
      consensusBlocksHandler env id height =
        ⟨.error "failed to parse block height" StatusBadRequest, [.Sscan height]⟩ ∧
      NoEngineQuery (consensusBlocksHandler env id height).calls) := by
  refine ⟨?_, ?_, ?_⟩
  · intro msg status hr
    rcases handler_cases env id height with ⟨_, _, h⟩ | ⟨_, _, h⟩ | ⟨hid, hh⟩ | ⟨hid, hh⟩
    · rw [h] at hr
      simp only [Response.error.injEq] at hr
      simp [blockLookupErrors, ← hr.1, ← hr.2]
    · rw [h] at hr
      simp only [Response.error.injEq] at hr
      simp [blockLookupErrors, ← hr.1, ← hr.2]
    · subst hh
      rw [handler_by_id env id hid] at hr
      cases hL : env.LoadString id with
      | none =>
        rw [hL] at hr
        simp only [Response.error.injEq] at hr
        simp [blockLookupErrors, ← hr.1, ← hr.2]
      | some bid =>
        rw [hL] at hr
        cases hf : (env.cs.BlockByID bid).2.2
        · simp only [hf, if_true, Response.error.injEq] at hr
          simp [blockLookupErrors, ← hr.1, ← hr.2]
        · simp [hf] at hr
    · subst hid
      rw [handler_by_height env height hh] at hr
      cases hL : env.Sscan height with
      | none =>
        rw [hL] at hr
        simp only [Response.error.injEq] at hr
        simp [blockLookupErrors, ← hr.1, ← hr.2]
      | some h =>
        rw [hL] at hr
        cases hf : (env.cs.BlockAtHeight h).2
        · simp only [hf, if_true, Response.error.injEq] at hr
          simp [blockLookupErrors, ← hr.1, ← hr.2]
        · simp [hf] at hr
  · intro hid hh hL
    subst hh
    rw [handler_by_id env id hid, hL]
    refine ⟨rfl, ?_⟩
    intro c hc
    rw [List.mem_singleton] at hc
    subst hc
    rfl
  · intro hid hh hL
    subst hid
    rw [handler_by_height env height hh, hL]
    refine ⟨rfl, ?_⟩
    intro c hc
    rw [List.mem_singleton] at hc
    subst hc
    rfl

/-- Witness of C12 as amended: an identifier that `LoadString` rejects and a
height that `fmt.Sscan` cannot read, each as the only selector. -/
theorem block_lookup_errors_classified_witness :
    (Example.envScan.LoadString "abc" = none ∧
      consensusBlocksHandler Example.envScan "abc" "" =
        ⟨.error "failed to unmarshal blockid" 400, [.LoadString "abc"]⟩) ∧
    (Example.envScan.Sscan "abc" = none ∧
      consensusBlocksHandler Example.envScan "" "abc" =
        ⟨.error "failed to parse block height" 400, [.Sscan "abc"]⟩) ∧
    (400 = StatusBadRequest ∧ "block doesn't exist" ∈ blockLookupErrors) :=
  ⟨⟨by decide, ((block_lookup_errors_classified Example.envScan "abc" "").2.1
      (by decide) rfl (by decide)).1⟩,
    ⟨by decide, ((block_lookup_errors_classified Example.envScan "" "abc").2.2
      rfl (by decide) (by decide)).1⟩,
    (block_lookup_errors_classified Example.envScan "" "999999999").1
      "block doesn't exist" 400 (by decide)⟩

/-- Counterexample to C12 as stated: the height "10abc" is not a decimal integer,
yet with it as the only selector `fmt.Sscan` reads the number 10, the engine is
asked for the block at height 10, and the response is the block, not the error
"failed to parse block height". -/
theorem height_with_trailing_text_is_read :
    isDecimalInteger "10abc" = false ∧
    Example.envScan.Sscan "10abc" = some 10 ∧
    (consensusBlocksHandler Example.envScan "" "10abc").response ≠
      .error "failed to parse block height" StatusBadRequest ∧
    (consensusBlocksHandler Example.envScan "" "10abc").calls =
      [.Sscan "10abc", .BlockAtHeight 10] ∧
    ¬ NoEngineQuery (consensusBlocksHandler Example.envScan "" "10abc").calls ∧
    (consensusBlocksHandler Example.envScan "" "10abc").response =
      (consensusBlocksHandler Example.envScan "" "10").response := by
  refine ⟨by decide, by decide, by decide, by decide, by decide, by decide⟩

/-- C14. Transaction IDs are attached in block order: in the response of a
successful block lookup the list of transaction IDs is as long as the list of
transactions of the block and its k-th element is the ID of the k-th
transaction, and the ID, parent ID, nonce, timestamp, miner payouts and
transactions are those of the block that the engine returned; the height is the
one the engine reported for a lookup by id and the requested one for a lookup
by height. -/
theorem transaction_ids_in_block_order (env : Env UC FCR SP TS) (id height : String) :
    (∀ bid : BlockID, id ≠ "" → height = "" → env.LoadString id = some bid →
      (env.cs.BlockByID bid).2.2 = true →
      ∃ r, (consensusBlocksHandler env id height).response = .json r ∧
        CarriesBlock env (env.cs.BlockByID bid).1 (env.cs.BlockByID bid).2.1 r) ∧
    (∀ h : BlockHeight, id = "" → height ≠ "" → env.Sscan height = some h →
      (env.cs.BlockAtHeight h).2 = true →
      ∃ r, (consensusBlocksHandler env id height).response = .json r ∧
        CarriesBlock env (env.cs.BlockAtHeight h).1 h r) := by
  constructor
  · intro bid hid hh hL hf
    subst hh
    rw [handler_by_id env id hid, hL]
    simp only [hf, Bool.true_eq_false, if_false]
    exact ⟨_, rfl, carriesBlock_body env _ _⟩
  · intro h hid hh hL hf
    subst hid
    rw [handler_by_height env height hh, hL]
    simp only [hf, Bool.true_eq_false, if_false]
    exact ⟨_, rfl, carriesBlock_body env _ _⟩

/-- Witness of C14: a lookup by a known identifier, reported at the height 3 of
the engine, and a lookup at the requested height 7. -/
theorem transaction_ids_in_block_order_witness :
    (∃ r, (consensusBlocksHandler Example.envScan Example.knownID "").response = .json r ∧
      CarriesBlock Example.envScan Example.block 3 r) ∧
    (∃ r, (consensusBlocksHandler Example.envScan "" "7").response = .json r ∧
      CarriesBlock Example.envScan Example.block 7 r) :=
  ⟨(transaction_ids_in_block_order Example.envScan Example.knownID "").1
      (List.replicate 64 97) (by decide) rfl (by decide) (by decide),
    (transaction_ids_in_block_order Example.envScan "" "7").2 7 rfl (by decide)
      (by decide) (by decide)⟩

end

end api

/-! ## Decimal numbers and keys -/

theorem digitChar_value (k : Nat) (hk : k < 10) : (Nat.digitChar k).toNat - 48 = k := by
  interval_cases k <;> rfl

theorem decodeDecimal_toDigitsCore (fuel n : Nat) (ds : List Char) (h : n < fuel) :
    decodeDecimal (Nat.toDigitsCore 10 fuel n ds) 0 = decodeDecimal ds n := by
  induction fuel generalizing n ds with
  | zero => omega
  | succ fuel ih =>
    unfold Nat.toDigitsCore
    by_cases h0 : n / 10 = 0
    · simp only [h0, if_true]
      have hn : n % 10 = n := by omega
      have hlt : n < 10 := by omega
      simp only [decodeDecimal, List.foldl_cons, hn, digitChar_value n hlt, Nat.mul_zero,
        Nat.zero_add]
    · simp only [h0, if_false]
      rw [ih (n / 10) _ (by omega)]
      simp only [decodeDecimal, List.foldl_cons,
        digitChar_value (n % 10) (Nat.mod_lt _ (by decide))]
      congr 1
      omega

theorem toString_nat_injective {i j : Nat} (h : toString i = toString j) : i = j := by
  have hd : Nat.toDigits 10 i = Nat.toDigits 10 j := by
    have := congrArg String.data h
    simpa [toString, Nat.repr, List.asString] using this
  have hi := decodeDecimal_toDigitsCore (i + 1) i [] (Nat.lt_succ_self i)
  have hj := decodeDecimal_toDigitsCore (j + 1) j [] (Nat.lt_succ_self j)
  simp only [decodeDecimal, List.foldl_nil] at hi hj
  have := congrArg (fun l => decodeDecimal l 0) hd
  simp only [Nat.toDigits, decodeDecimal] at this
  rw [hi, hj] at this
  exact this

theorem append_separator_inj {a b c d : List Char} {x : Char} (ha : x ∉ a) (hb : x ∉ b)
    (h : a ++ x :: c = b ++ x :: d) : a = b ∧ c = d := by
  induction a generalizing b with
  | nil =>
    cases b with
    | nil => simpa using h
    | cons y b =>
      simp only [List.nil_append, List.cons_append, List.cons.injEq] at h
      exact absurd (h.1 ▸ List.mem_cons_self _ _) hb
  | cons y a ih =>
    cases b with
    | nil =>
      simp only [List.nil_append, List.cons_append, List.cons.injEq] at h
      exact absurd (h.1 ▸ List.mem_cons_self _ _) ha
    | cons z b =>
      simp only [List.cons_append, List.cons.injEq] at h
      have := ih (fun hm => ha (List.mem_cons_of_mem _ hm))
        (fun hm => hb (List.mem_cons_of_mem _ hm)) h.2
      exact ⟨by rw [h.1, this.1], this.2⟩
namespace api

open types

/-! ## The map of siacoin output IDs -/

section

variable {V : Type}

theorem lookup_filter_ne_self (m : StringMap V) (k : String) :
    (m.filter (fun p => p.1 != k)).lookup k = none := by
  induction m with
  | nil => rfl
  | cons p m ih =>
    by_cases hp : p.1 = k
    · simp [List.filter_cons, hp, ih]
    · have hk : (k == p.1) = false := by simpa using fun e => hp e.symm
      simp only [List.filter_cons, bne_iff_ne, ne_eq, hp, not_false_eq_true, decide_True, if_true]
      rw [List.lookup_cons, hk]
      exact ih

theorem lookup_filter_ne_other (m : StringMap V) {k k2 : String} (h : k2 ≠ k) :
    (m.filter (fun p => p.1 != k)).lookup k2 = m.lookup k2 := by
  induction m with
  | nil => rfl
  | cons p m ih =>
    by_cases hp : p.1 = k
    · have hk : (k2 == p.1) = false := by simpa [hp] using h
      simp only [List.filter_cons, hp, bne_self_eq_false, Bool.false_eq_true, if_false]
      rw [List.lookup_cons, hk]
      exact ih
    · simp only [List.filter_cons, bne_iff_ne, ne_eq, hp, not_false_eq_true, decide_True, if_true]
      rw [List.lookup_cons, List.lookup_cons, ih]

theorem lookup_set_self (m : StringMap V) (k : String) (v : V) :
    (m.set k v).get? k = some v := by
  simp [StringMap.get?, StringMap.set, List.lookup_append, lookup_filter_ne_self]

theorem lookup_set_other (m : StringMap V) {k k2 : String} (v : V) (h : k2 ≠ k) :
    (m.set k v).get? k2 = m.get? k2 := by
  have hk : (k2 == k) = false := by simpa using h
  simp [StringMap.get?, StringMap.set, List.lookup_append, lookup_filter_ne_other m h,
    List.lookup_cons, hk]

theorem mem_keys_set (m : StringMap V) (k k2 : String) (v : V) :
    k2 ∈ (m.set k v).keys ↔ k2 ∈ m.keys ∨ k2 = k := by
  simp only [StringMap.keys, StringMap.set, List.map_append, List.mem_append, List.mem_map,
    List.mem_filter, List.map_cons, List.map_nil, List.mem_singleton]
  constructor
  · rintro (⟨p, ⟨hp, _⟩, rfl⟩ | h)
    · exact Or.inl ⟨p, hp, rfl⟩
    · exact Or.inr h
  · rintro (⟨p, hp, rfl⟩ | h)
    · by_cases hk : p.1 = k
      · exact Or.inr hk
      · exact Or.inl ⟨p, ⟨hp, by simpa using hk⟩, rfl⟩
    · exact Or.inr h

theorem keys_set_nodup (m : StringMap V) (k : String) (v : V) (h : m.keys.Nodup) :
    (m.set k v).keys.Nodup := by
  simp only [StringMap.keys, StringMap.set, List.map_append, List.map_cons, List.map_nil]
  have hsub : List.Sublist ((m.filter (fun p => p.1 != k)).map Prod.fst) (m.map Prod.fst) :=
    (List.filter_sublist m).map _
  refine List.Nodup.append (h.sublist hsub) (List.nodup_singleton _) ?_
  intro x hx hx2
  rw [List.mem_singleton] at hx2
  subst hx2
  simp only [List.mem_map, List.mem_filter] at hx
  obtain ⟨p, ⟨_, hp⟩, rfl⟩ := hx
  simp at hp

theorem mem_keys_setAll (ps : List (String × V)) (m : StringMap V) (k : String) :
    k ∈ (m.setAll ps).keys ↔ k ∈ m.keys ∨ k ∈ ps.map Prod.fst := by
  induction ps generalizing m with
  | nil => simp [StringMap.setAll]
  | cons p ps ih =>
    have := ih (m.set p.1 p.2)
    simp only [StringMap.setAll, List.foldl_cons] at this ⊢
    rw [this, mem_keys_set]
    simp only [List.map_cons, List.mem_cons]
    tauto

theorem keys_setAll_nodup (ps : List (String × V)) (m : StringMap V) (h : m.keys.Nodup) :
    (m.setAll ps).keys.Nodup := by
  induction ps generalizing m with
  | nil => simpa [StringMap.setAll] using h
  | cons p ps ih =>
    simp only [StringMap.setAll, List.foldl_cons]
    exact ih _ (keys_set_nodup m p.1 p.2 h)

theorem lookup_setAll_of_not_mem (ps : List (String × V)) (m : StringMap V) (k : String)
    (h : k ∉ ps.map Prod.fst) : (m.setAll ps).get? k = m.get? k := by
  induction ps generalizing m with
  | nil => rfl
  | cons p ps ih =>
    simp only [List.map_cons, List.mem_cons, not_or] at h
    have := ih (m.set p.1 p.2) h.2
    simp only [StringMap.setAll, List.foldl_cons] at this ⊢
    rw [this, lookup_set_other m p.2 h.1]

/-- After a run of assignments, a key that was assigned holds the value of its
assignments when they all agree. -/
theorem lookup_setAll_of_agree (ps : List (String × V)) (m : StringMap V) (k : String) (v : V)
    (hex : k ∈ ps.map Prod.fst) (hall : ∀ p ∈ ps, p.1 = k → p.2 = v) :
    (m.setAll ps).get? k = some v := by
  induction ps generalizing m with
  | nil => simp at hex
  | cons p ps ih =>
    by_cases hin : k ∈ ps.map Prod.fst
    · have := ih (m.set p.1 p.2) hin (fun q hq => hall q (List.mem_cons_of_mem _ hq))
      simpa only [StringMap.setAll, List.foldl_cons] using this
    · have hpk : p.1 = k := by
        simp only [List.map_cons, List.mem_cons] at hex
        rcases hex with h | h
        · exact h.symm
        · exact absurd h hin
      have h1 := lookup_setAll_of_not_mem ps (m.set p.1 p.2) k hin
      simp only [StringMap.setAll, List.foldl_cons] at h1 ⊢
      rw [h1, hpk, lookup_set_self, ← hall p (List.mem_cons_self _ _) hpk]

end

section

variable {UC FCR SP TS : Type}

theorem addSiacoinOutputIDs_eq (env : Env UC FCR SP TS) (txn : Transaction UC FCR SP TS)
    (m : StringMap SiacoinOutputID) :
    addSiacoinOutputIDs env txn (txn.ID env.hash env.E) m = m.setAll (writesOf env txn) := by
  simp only [addSiacoinOutputIDs, StringMap.setAll, writesOf, List.foldl_map]

theorem collectIDs_snd_aux (env : Env UC FCR SP TS) (txns : List (Transaction UC FCR SP TS))
    (acc : List TransactionID × StringMap SiacoinOutputID) :
    (txns.foldl
      (fun acc txn =>
        (acc.1 ++ [txn.ID env.hash env.E],
          addSiacoinOutputIDs env txn (txn.ID env.hash env.E) acc.2)) acc).2 =
      acc.2.setAll (txns.flatMap (writesOf env)) := by
  induction txns generalizing acc with
  | nil => rfl
  | cons t ts ih =>
    rw [List.foldl_cons, ih, addSiacoinOutputIDs_eq]
    simp only [StringMap.setAll, List.flatMap_cons, List.foldl_append]

theorem collectIDs_snd (env : Env UC FCR SP TS) (txns : List (Transaction UC FCR SP TS)) :
    (collectIDs env txns).2 = StringMap.setAll [] (txns.flatMap (writesOf env)) := by
  simpa [collectIDs] using collectIDs_snd_aux env txns ([], [])

theorem mem_writes_keys (env : Env UC FCR SP TS) (txns : List (Transaction UC FCR SP TS))
    (key : String) :
    key ∈ (txns.flatMap (writesOf env)).map Prod.fst ↔
      ∃ txn ∈ txns, ∃ j, j < txn.SiacoinOutputs.length ∧
        key = outputKey env (txn.ID env.hash env.E) j := by
  simp only [List.mem_map, List.mem_flatMap, writesOf, List.mem_range]
  constructor
  · rintro ⟨p, ⟨txn, htxn, j, hj, rfl⟩, rfl⟩
    exact ⟨txn, htxn, j, hj, rfl⟩
  · rintro ⟨txn, htxn, j, hj, rfl⟩
    exact ⟨_, ⟨txn, htxn, j, hj, rfl⟩, rfl⟩

theorem outputKey_inj (env : Env UC FCR SP TS) {id1 id2 : TransactionID} {j1 j2 : Nat}
    (h1 : '_' ∉ (env.txidString id1).data) (h2 : '_' ∉ (env.txidString id2).data)
    (h : outputKey env id1 j1 = outputKey env id2 j2) :
    env.txidString id1 = env.txidString id2 ∧ j1 = j2 := by
  have hd := congrArg String.data h
  simp only [outputKey, String.data_append] at hd
  rw [List.append_assoc, List.append_assoc, List.singleton_append,
    List.singleton_append] at hd
  obtain ⟨ha, hb⟩ := append_separator_inj h1 h2 hd
  refine ⟨String.ext ha, toString_nat_injective (String.ext hb)⟩

theorem SiacoinOutputID_congr (hash : Bytes → Hash) (E : FieldEncoders UC FCR SP)
    {t1 t2 : Transaction UC FCR SP TS} (h : encodeNoSignatures E t1 = encodeNoSignatures E t2)
    (j : Nat) : t1.SiacoinOutputID hash E j = t2.SiacoinOutputID hash E j := by
  simp only [Transaction.SiacoinOutputID, Hasher.Sum, SiacoinOutputIDHasher_written, h]

end

end api

namespace api

open types

section

variable {UC FCR SP TS : Type}

theorem handler_json (env : Env UC FCR SP TS) (id height : String)
    (r : ConsensusBlocksGet UC FCR SP TS)
    (hr : (consensusBlocksHandler env id height).response = .json r) :
    r.TransactionIDs = (collectIDs env r.Transactions).1 ∧
    r.SiacoinOutputIDs = (collectIDs env r.Transactions).2 := by
  rcases handler_cases env id height with ⟨_, _, h⟩ | ⟨_, _, h⟩ | ⟨hid, hh⟩ | ⟨hid, hh⟩
  · rw [h] at hr
    simp at hr
  · rw [h] at hr
    simp at hr
  · subst hh
    rw [handler_by_id env id hid] at hr
    cases hL : env.LoadString id with
    | none =>
      rw [hL] at hr
      simp at hr
    | some bid =>
      rw [hL] at hr
      cases hf : (env.cs.BlockByID bid).2.2
      · simp [hf] at hr
      · simp only [hf, Bool.true_eq_false, if_false, Response.json.injEq] at hr
        subst hr
        exact ⟨rfl, rfl⟩
  · subst hid
    rw [handler_by_height env height hh] at hr
    cases hL : env.Sscan height with
    | none =>
      rw [hL] at hr
      simp at hr
    | some h =>
      rw [hL] at hr
      cases hf : (env.cs.BlockAtHeight h).2
      · simp [hf] at hr
      · simp only [hf, Bool.true_eq_false, if_false, Response.json.injEq] at hr
        subst hr
        exact ⟨rfl, rfl⟩

theorem collectIDs_lookup (env : Env UC FCR SP TS) (txns : List (Transaction UC FCR SP TS))
    (h1 : EqualIDsEqualEncodings env txns) (h2 : TextualIDsFaithful env txns)
    (txn : Transaction UC FCR SP TS) (htxn : txn ∈ txns) (j : Nat)
    (hj : j < txn.SiacoinOutputs.length) :
    (collectIDs env txns).2.get? (outputKey env (txn.ID env.hash env.E) j) =
      some (txn.SiacoinOutputID env.hash env.E j) := by
  rw [collectIDs_snd]
  apply lookup_setAll_of_agree
  · rw [mem_writes_keys]
    exact ⟨txn, htxn, j, hj, rfl⟩
  · intro p hp hk
    simp only [List.mem_flatMap, writesOf, List.mem_map, List.mem_range] at hp
    obtain ⟨t2, ht2, j2, _, rfl⟩ := hp
    obtain ⟨hs, hjj⟩ := outputKey_inj env (h2.2 t2 ht2) (h2.2 txn htxn) hk
    subst hjj
    exact SiacoinOutputID_congr env.hash env.E (h1 t2 ht2 txn htxn (h2.1 t2 ht2 txn htxn hs)) j2

theorem collectIDs_keys (env : Env UC FCR SP TS) (txns : List (Transaction UC FCR SP TS))
    (key : String) :
    key ∈ (collectIDs env txns).2.keys ↔
      ∃ txn ∈ txns, ∃ j, j < txn.SiacoinOutputs.length ∧
        key = outputKey env (txn.ID env.hash env.E) j := by
  rw [collectIDs_snd, mem_keys_setAll, mem_writes_keys]
  simp [StringMap.keys]

theorem collectIDs_empty (env : Env UC FCR SP TS) (txns : List (Transaction UC FCR SP TS))
    (h : ∀ txn ∈ txns, txn.SiacoinOutputs = []) : (collectIDs env txns).2 = [] := by
  have hw : txns.flatMap (writesOf env) = [] := by
    rw [List.flatMap_eq_nil_iff]
    intro t ht
    simp [writesOf, h t ht]
  rw [collectIDs_snd, hw]
  rfl

/-- C15. The map of siacoin output IDs is exactly the derivation per
transaction: in the response of a successful block lookup the keys of
`siacoinoutputids` are exactly the texts `<txid>_<j>` for the transactions of the
block, `txid` the textual form of the ID of the transaction and `j` the decimal
position of one of its own siacoin outputs, every key occurring once; when
transactions of the block with equal IDs have equal encodings without
signatures (and the textual form of their IDs is faithful), the value under the
key of a transaction and a position is the `SiacoinOutputID` of that transaction
at that position; no key comes from anything but the siacoin outputs of the
transactions, so a block whose transactions have no siacoin output gives the
empty map, whatever its miner payouts. -/
theorem siacoin_output_id_map_exact (env : Env UC FCR SP TS) (id height : String)
    (r : ConsensusBlocksGet UC FCR SP TS)
    (hr : (consensusBlocksHandler env id height).response = .json r) :
    (∀ (txid : TransactionID) (j : Nat),
      outputKey env txid j = env.txidString txid ++ "_" ++ Nat.repr j) ∧
    (∀ key : String, key ∈ r.SiacoinOutputIDs.keys ↔
      ∃ txn ∈ r.Transactions, ∃ j, j < txn.SiacoinOutputs.length ∧
        key = outputKey env (txn.ID env.hash env.E) j) ∧
    r.SiacoinOutputIDs.keys.Nodup ∧
    (EqualIDsEqualEncodings env r.Transactions → TextualIDsFaithful env r.Transactions →
      ∀ txn ∈ r.Transactions, ∀ j, j < txn.SiacoinOutputs.length →
        r.SiacoinOutputIDs.get? (outputKey env (txn.ID env.hash env.E) j) =
          some (txn.SiacoinOutputID env.hash env.E j)) ∧
    ((∀ txn ∈ r.Transactions, txn.SiacoinOutputs = []) → r.SiacoinOutputIDs = []) := by
  obtain ⟨_, hm⟩ := handler_json env id height r hr
  refine ⟨fun _ _ => rfl, ?_, ?_, ?_, ?_⟩
  · intro key
    rw [hm]
    exact collectIDs_keys env r.Transactions key
  · rw [hm, collectIDs_snd]
    exact keys_setAll_nodup _ _ List.nodup_nil
  · intro h1 h2 txn htxn j hj
    rw [hm]
    exact collectIDs_lookup env r.Transactions h1 h2 txn htxn j hj
  · intro h
    rw [hm]
    exact collectIDs_empty env r.Transactions h

/-- Witness of C15: a block in which a transaction and its re-signed copy have
the same ID and the same encoding; the key of the second siacoin output of the
copy holds the ID of that output. -/
theorem siacoin_output_id_map_exact_witness :
    (consensusBlocksHandler Example.envResigned "" "5").response =
      .json Example.bodyResigned ∧
    EqualIDsEqualEncodings Example.envResigned Example.bodyResigned.Transactions ∧
    TextualIDsFaithful Example.envResigned Example.bodyResigned.Transactions ∧
    Example.tx.ID Example.hash Example.encoders =
      Example.txResigned.ID Example.hash Example.encoders ∧
    Example.bodyResigned.SiacoinOutputIDs.keys.length = 4 ∧
    Example.bodyResigned.SiacoinOutputIDs.get?
        (outputKey Example.envResigned (Example.txResigned.ID Example.hash Example.encoders) 1) =
      some (Example.txResigned.SiacoinOutputID Example.hash Example.encoders 1) :=
  ⟨by decide, by decide, by decide, by decide, by decide,
    (siacoin_output_id_map_exact Example.envResigned "" "5" Example.bodyResigned
      (by decide)).2.2.2.1 (by decide) (by decide) Example.txResigned (by decide) 1
      (by decide)⟩

end

end api

namespace api

open types

/-! ## The block view -/

theorem foldl_append_singleton {α β : Type} (f : α → β) (l : List α) (a : List β) :
    l.foldl (fun acc x => acc ++ [f x]) a = a ++ l.map f := by
  induction l generalizing a with
  | nil => simp
  | cons x xs ih => simp [List.foldl_cons, ih]

theorem getElem_enum_map {α β : Type} (g : Nat × α → β) (l : List α) (i : Nat) :
    (l.enum.map g)[i]? = (l[i]?).map (fun x => g (i, x)) := by
  rw [List.getElem?_map, List.getElem?_enum]
  cases l[i]? <;> rfl

section

variable {UC FCR SP TS : Type}

theorem viewSiacoinOutputs_eq (env : Env UC FCR SP TS) (t : Transaction UC FCR SP TS) :
    viewSiacoinOutputs env t = t.SiacoinOutputs.enum.map
      (fun p => ⟨t.SiacoinOutputID env.hash env.E p.1, p.2.Value, p.2.UnlockHash⟩) := by
  simp only [viewSiacoinOutputs, foldl_append_singleton, List.nil_append]

theorem viewSiafundOutputs_eq (env : Env UC FCR SP TS) (t : Transaction UC FCR SP TS) :
    viewSiafundOutputs env t = t.SiafundOutputs.enum.map
      (fun p => ⟨t.SiafundOutputID env.hash env.E p.1, p.2.Value, p.2.UnlockHash⟩) := by
  simp only [viewSiafundOutputs, foldl_append_singleton, List.nil_append]

theorem viewProofOutputs_eq (spo : FileContractID → ProofStatus → Nat → SiacoinOutputID)
    (fcid : FileContractID) (status : ProofStatus) (outputs : List SiacoinOutput) :
    viewProofOutputs spo fcid status outputs = outputs.enum.map
      (fun p => ⟨spo fcid status p.1, p.2.Value, p.2.UnlockHash⟩) := by
  simp only [viewProofOutputs, foldl_append_singleton, List.nil_append]

theorem viewFileContracts_eq (env : Env UC FCR SP TS)
    (spo : FileContractID → ProofStatus → Nat → SiacoinOutputID)
    (t : Transaction UC FCR SP TS) :
    viewFileContracts env spo t = t.FileContracts.enum.map
      (fun p => ⟨t.FileContractID env.hash env.E p.1, p.2.FileSize, p.2.FileMerkleRoot,
        p.2.WindowStart, p.2.WindowEnd, p.2.Payout,
        viewProofOutputs spo (t.FileContractID env.hash env.E p.1) ProofStatus.ProofValid
          p.2.ValidProofOutputs,
        viewProofOutputs spo (t.FileContractID env.hash env.E p.1) ProofStatus.ProofMissed
          p.2.MissedProofOutputs,
        p.2.UnlockHash, p.2.RevisionNumber⟩) := by
  simp only [viewFileContracts, foldl_append_singleton, List.nil_append]

theorem view_transactions_eq (env : Env UC FCR SP TS)
    (spo : FileContractID → ProofStatus → Nat → SiacoinOutputID)
    (b : Block UC FCR SP TS) (h : BlockHeight) (d : Currency) :
    (consensusBlocksGetFromBlock env spo b h d).Transactions =
      b.Transactions.map (viewTxn env spo) := by
  simp only [consensusBlocksGetFromBlock, foldl_append_singleton, List.nil_append]

/-- C16. The block view attaches output IDs by position: the transactions of
`consensusBlocksGetFromBlock(b, h, d)` are as many as those of `b` and in the
same order; the k-th has the ID of the k-th transaction of `b`, as many siacoin
outputs as it, the i-th with the ID `SiacoinOutputID(i)` of that transaction and
the value and unlock hash of its i-th siacoin output, and as many siafund
outputs, the i-th with the ID `SiafundOutputID(i)` and the value and unlock hash
of its i-th siafund output. -/
theorem view_attaches_output_ids (env : Env UC FCR SP TS)
    (spo : FileContractID → ProofStatus → Nat → SiacoinOutputID)
    (b : Block UC FCR SP TS) (h : BlockHeight) (d : Currency) :
    (consensusBlocksGetFromBlock env spo b h d).Transactions.length = b.Transactions.length ∧
    ∀ (k : Nat) (t : Transaction UC FCR SP TS), b.Transactions[k]? = some t →
      ∃ vt, (consensusBlocksGetFromBlock env spo b h d).Transactions[k]? = some vt ∧
        vt.ID = t.ID env.hash env.E ∧
        vt.SiacoinOutputs.length = t.SiacoinOutputs.length ∧
        (∀ (i : Nat) (sco : SiacoinOutput), t.SiacoinOutputs[i]? = some sco →
          vt.SiacoinOutputs[i]? =
            some ⟨t.SiacoinOutputID env.hash env.E i, sco.Value, sco.UnlockHash⟩) ∧
        vt.SiafundOutputs.length = t.SiafundOutputs.length ∧
        (∀ (i : Nat) (sfo : SiafundOutput), t.SiafundOutputs[i]? = some sfo →
          vt.SiafundOutputs[i]? =
            some ⟨t.SiafundOutputID env.hash env.E i, sfo.Value, sfo.UnlockHash⟩) := by
  rw [view_transactions_eq]
  refine ⟨by simp, ?_⟩
  intro k t hk
  refine ⟨viewTxn env spo t, by simp [hk], rfl, ?_, ?_, ?_, ?_⟩
  · simp [viewTxn, viewSiacoinOutputs_eq]
  · intro i sco hi
    simp only [viewTxn, viewSiacoinOutputs_eq]
    rw [getElem_enum_map, hi]
    rfl
  · simp [viewTxn, viewSiafundOutputs_eq]
  · intro i sfo hi
    simp only [viewTxn, viewSiafundOutputs_eq]
    rw [getElem_enum_map, hi]
    rfl

/-- Witness of C16: the second siacoin output of the first transaction and the
siafund output of the second transaction of the example block. -/
theorem view_attaches_output_ids_witness :
    ∃ vt, (consensusBlocksGetFromBlock Example.envScan Example.spo Example.block 3
        77).Transactions[1]? = some vt ∧
      vt.ID = Example.txOther.ID Example.hash Example.encoders ∧
      vt.SiacoinOutputs[1]? =
        some ⟨Example.txOther.SiacoinOutputID Example.hash Example.encoders 1, 250, [2]⟩ ∧
      vt.SiafundOutputs[0]? =
        some ⟨Example.txOther.SiafundOutputID Example.hash Example.encoders 0, 1000, []⟩ :=
  match (view_attaches_output_ids Example.envScan Example.spo Example.block 3 77).2 1
      Example.txOther rfl with
  | ⟨vt, h1, h2, _, h4, _, h6⟩ => ⟨vt, h1, h2, h4 1 ⟨250, [2]⟩ rfl, h6 0 ⟨1000, [], 0⟩ rfl⟩

/-- C17. Proof-output IDs are scoped to the contract: in the view of a block,
the file contract at position i of a transaction has the ID `FileContractID(i)`
of that transaction, its j-th valid proof output has the ID
`StorageProofOutputID(ProofValid, j)` of that contract ID and its j-th missed
proof output the ID `StorageProofOutputID(ProofMissed, j)` of that contract ID,
each list being counted from 0 on its own; so a proof-output ID is a function of
the ID of its contract, the kind and the position, and of nothing else of the
transaction. -/
theorem view_scopes_proof_outputs (env : Env UC FCR SP TS)
    (spo : FileContractID → ProofStatus → Nat → SiacoinOutputID)
    (b : Block UC FCR SP TS) (h : BlockHeight) (d : Currency) :
    ∀ (k : Nat) (t : Transaction UC FCR SP TS), b.Transactions[k]? = some t →
      ∃ vt, (consensusBlocksGetFromBlock env spo b h d).Transactions[k]? = some vt ∧
        vt.FileContracts.length = t.FileContracts.length ∧
        ∀ (i : Nat) (fc : FileContract), t.FileContracts[i]? = some fc →
          ∃ vfc, vt.FileContracts[i]? = some vfc ∧
            vfc.ID = t.FileContractID env.hash env.E i ∧
            vfc.ValidProofOutputs.length = fc.ValidProofOutputs.length ∧
            vfc.MissedProofOutputs.length = fc.MissedProofOutputs.length ∧
            (∀ (j : Nat) (vpo : SiacoinOutput), fc.ValidProofOutputs[j]? = some vpo →
              vfc.ValidProofOutputs[j]? =
                some ⟨spo vfc.ID ProofStatus.ProofValid j, vpo.Value, vpo.UnlockHash⟩) ∧
            (∀ (j : Nat) (mpo : SiacoinOutput), fc.MissedProofOutputs[j]? = some mpo →
              vfc.MissedProofOutputs[j]? =
                some ⟨spo vfc.ID ProofStatus.ProofMissed j, mpo.Value, mpo.UnlockHash⟩) := by
  intro k t hk
  rw [view_transactions_eq]
  refine ⟨viewTxn env spo t, by simp [hk], ?_, ?_⟩
  · simp [viewTxn, viewFileContracts_eq]
  · intro i fc hi
    simp only [viewTxn, viewFileContracts_eq]
    rw [getElem_enum_map, hi]
    refine ⟨_, rfl, rfl, ?_, ?_, ?_, ?_⟩
    · simp [viewProofOutputs_eq]
    · simp [viewProofOutputs_eq]
    · intro j vpo hj
      simp only [viewProofOutputs_eq]
      rw [getElem_enum_map, hj]
      rfl
    · intro j mpo hj
      simp only [viewProofOutputs_eq]
      rw [getElem_enum_map, hj]
      rfl

/-- Witness of C17: the file contract of the second transaction of the example
block, its valid proof output and its second missed proof output. -/
theorem view_scopes_proof_outputs_witness :
    ∃ vfc : ConsensusBlocksGetFileContract,
      vfc.ID = Example.txOther.FileContractID Example.hash Example.encoders 0 ∧
      vfc.ValidProofOutputs[0]? = some ⟨Example.spo vfc.ID ProofStatus.ProofValid 0, 7, []⟩ ∧
      vfc.MissedProofOutputs[1]? = some ⟨Example.spo vfc.ID ProofStatus.ProofMissed 1, 9, []⟩ :=
  match view_scopes_proof_outputs Example.envScan Example.spo Example.block 3 77 1
      Example.txOther rfl with
  | ⟨_, _, _, h3⟩ =>
    match h3 0 ⟨10, [], 1, 2, 40, [⟨7, []⟩], [⟨8, []⟩, ⟨9, []⟩], [], 0⟩ rfl with
    | ⟨vfc, _, h5, _, _, h8, h9⟩ => ⟨vfc, h5, h8 0 ⟨7, []⟩ rfl, h9 1 ⟨9, []⟩ rfl⟩

end

end api

namespace api

open types

/-! ## What the block lookup attaches -/

section

variable {V : Type}

theorem mem_set (m : StringMap V) (k : String) (v : V) (p : String × V)
    (h : p ∈ m.set k v) : p ∈ m ∨ p = (k, v) := by
  simp only [StringMap.set, List.mem_append, List.mem_filter, List.mem_singleton] at h
  rcases h with ⟨h, _⟩ | h
  · exact Or.inl h
  · exact Or.inr h

theorem mem_setAll (ps : List (String × V)) (m : StringMap V) (p : String × V)
    (h : p ∈ m.setAll ps) : p ∈ m ∨ p ∈ ps := by
  induction ps generalizing m with
  | nil => exact Or.inl h
  | cons q ps ih =>
    simp only [StringMap.setAll, List.foldl_cons] at h
    rcases ih (m.set q.1 q.2) h with h1 | h1
    · rcases mem_set m q.1 q.2 p h1 with h2 | h2
      · exact Or.inl h2
      · exact Or.inr (h2 ▸ List.mem_cons_self _ _)
    · exact Or.inr (List.mem_cons_of_mem _ h1)

theorem mem_of_lookup (m : StringMap V) (k : String) (v : V) (h : m.get? k = some v) :
    (k, v) ∈ m := by
  rw [StringMap.get?, List.lookup_eq_some_iff] at h
  obtain ⟨l1, l2, rfl, _⟩ := h
  simp

end

section

variable {UC FCR SP TS : Type}

/-- What the block lookup does attach. The response of a successful block lookup
carries the ID of every transaction of the block and, when transactions with
equal IDs have equal encodings without signatures (and the textual form of their
IDs is faithful), the `SiacoinOutputID` of every siacoin output of every
transaction; every ID in its list of transaction IDs and in its map is one of
these, so it carries no ID of another kind. -/
theorem block_lookup_attached_ids (env : Env UC FCR SP TS) (id height : String)
    (r : ConsensusBlocksGet UC FCR SP TS)
    (hr : (consensusBlocksHandler env id height).response = .json r) :
    (∀ txn ∈ r.Transactions, txn.ID env.hash env.E ∈ r.TransactionIDs) ∧
    (EqualIDsEqualEncodings env r.Transactions → TextualIDsFaithful env r.Transactions →
      ∀ txn ∈ r.Transactions, ∀ j, j < txn.SiacoinOutputs.length →
        txn.SiacoinOutputID env.hash env.E j ∈ r.SiacoinOutputIDs.map Prod.snd) ∧
    (∀ x ∈ r.TransactionIDs ++ r.SiacoinOutputIDs.map Prod.snd,
      (∃ txn ∈ r.Transactions, x = txn.ID env.hash env.E) ∨
      (∃ txn ∈ r.Transactions, ∃ j, j < txn.SiacoinOutputs.length ∧
        x = txn.SiacoinOutputID env.hash env.E j)) := by
  obtain ⟨ht, hm⟩ := handler_json env id height r hr
  refine ⟨?_, ?_, ?_⟩
  · intro txn htxn
    rw [ht, collectIDs_fst]
    exact List.mem_map_of_mem _ htxn
  · intro h1 h2 txn htxn j hj
    have := mem_of_lookup _ _ _ (collectIDs_lookup env r.Transactions h1 h2 txn htxn j hj)
    rw [hm]
    exact List.mem_map.2 ⟨_, this, rfl⟩
  · intro x hx
    rw [List.mem_append] at hx
    rcases hx with hx | hx
    · rw [ht, collectIDs_fst, List.mem_map] at hx
      obtain ⟨txn, htxn, rfl⟩ := hx
      exact Or.inl ⟨txn, htxn, rfl⟩
    · rw [hm, collectIDs_snd, List.mem_map] at hx
      obtain ⟨p, hp, rfl⟩ := hx
      rcases mem_setAll _ _ p hp with h0 | h0
      · simp at h0
      · simp only [List.mem_flatMap, writesOf, List.mem_map, List.mem_range] at h0
        obtain ⟨txn, htxn, j, hj, rfl⟩ := h0
        exact Or.inr ⟨txn, htxn, j, hj, rfl⟩

/-- An instance of `block_lookup_attached_ids`: the response for the example
block carries the ID of its second transaction and the ID of the first siacoin
output of it. -/
theorem block_lookup_attached_ids_witness :
    (consensusBlocksHandler Example.envScan "" "5").response = .json Example.bodyBlock ∧
    Example.txOther.ID Example.hash Example.encoders ∈ Example.bodyBlock.TransactionIDs ∧
    Example.txOther.SiacoinOutputID Example.hash Example.encoders 0 ∈
      Example.bodyBlock.SiacoinOutputIDs.map Prod.snd :=
  ⟨by decide,
    (block_lookup_attached_ids Example.envScan "" "5" Example.bodyBlock (by decide)).1
      Example.txOther (by decide),
    (block_lookup_attached_ids Example.envScan "" "5" Example.bodyBlock (by decide)).2.1
      (by decide) (by decide) Example.txOther (by decide) 0 (by decide)⟩

/-- C13, at the failing input. The example block holds a transaction with a
siafund output and a file contract with proof outputs; the response of its
lookup, built by `consensusBlocksHandler`, holds neither the `SiafundOutputID`
of the siafund output nor the `FileContractID` nor the ID of a proof output.
The helper `consensusBlocksGetFromBlock`, which the handler does not call, does
attach them: its view of the same block holds the `SiafundOutputID`. -/
theorem lookup_response_lacks_siafund_and_proof_ids :
    (consensusBlocksHandler Example.envScan "" "5").response = .json Example.bodyBlock ∧
    Example.txOther ∈ Example.bodyBlock.Transactions ∧
    Example.txOther.SiafundOutputs.length = 1 ∧
    (Example.txOther.FileContracts.map (fun fc => fc.ValidProofOutputs.length)) = [1] ∧
    Example.txOther.SiafundOutputID Example.hash Example.encoders 0 ∉
      Example.bodyBlock.attachedIDs ∧
    Example.txOther.FileContractID Example.hash Example.encoders 0 ∉
      Example.bodyBlock.attachedIDs ∧
    Example.spo (Example.txOther.FileContractID Example.hash Example.encoders 0)
      ProofStatus.ProofValid 0 ∉ Example.bodyBlock.attachedIDs ∧
    Example.spo (Example.txOther.FileContractID Example.hash Example.encoders 0)
      ProofStatus.ProofMissed 0 ∉ Example.bodyBlock.attachedIDs ∧
    ((consensusBlocksGetFromBlock Example.envScan Example.spo Example.block 5
        0).Transactions.map (fun t => t.SiafundOutputs.map (fun o => o.ID))) =
      [[], [Example.txOther.SiafundOutputID Example.hash Example.encoders 0]] := by
  refine ⟨by decide, by decide, by decide, by decide, by decide, by decide, by decide,
    by decide, by decide⟩

end

end api

namespace api

open types

/-! ## The tip summary and the validation of a transaction set -/

section

variable {UC FCR SP TS : Type}

/-- C18. A missing tip block is a server fault: when `BlockAtHeight(Height())`
reports not found, `consensusHandler` answers an error with the status
internal-server-error, which is not a client error, and writes no summary; when
it reports found, the handler writes a summary whose height is `Height()`, whose
current block is the ID of that block, whose target is `ChildTarget` of that ID
and whose difficulty is the difficulty of that target. -/
theorem missing_tip_block_is_server_fault (env : Env UC FCR SP TS) (st : ConsensusStatus)
    (K : Constants) :
    ((env.cs.BlockAtHeight st.Height).2 = false →
      (consensusHandler env st K).response =
        .error "Failed to fetch block for current height" StatusInternalServerError ∧
      StatusInternalServerError = 500 ∧
      ¬ (400 ≤ StatusInternalServerError ∧ StatusInternalServerError < 500) ∧
      ∀ g, (consensusHandler env st K).response ≠ .json g) ∧
    ((env.cs.BlockAtHeight st.Height).2 = true →
      ∃ g, (consensusHandler env st K).response = .json g ∧
        g.Height = st.Height ∧
        g.CurrentBlock = env.blockID (env.cs.BlockAtHeight st.Height).1 ∧
        g.Target = (st.ChildTarget g.CurrentBlock).1 ∧
        g.Difficulty = st.Difficulty g.Target) := by
  constructor
  · intro hf
    simp [consensusHandler, hf, StatusInternalServerError]
  · intro hf
    simp [consensusHandler, hf]

/-- Witness of C18: an engine whose reported height has no block, and one whose
reported height has a block. -/
theorem missing_tip_block_is_server_fault_witness :
    (consensusHandler Example.envScan Example.statusMissing Example.constants).response =
      .error "Failed to fetch block for current height" 500 ∧
    ∃ g, (consensusHandler Example.envScan Example.statusKnown Example.constants).response =
        .json g ∧
      g.Height = 10 ∧ g.CurrentBlock = [42] ∧ g.Target = [42, 7] ∧ g.Difficulty = 2 :=
  ⟨((missing_tip_block_is_server_fault Example.envScan Example.statusMissing
      Example.constants).1 (by decide)).1,
    match (missing_tip_block_is_server_fault Example.envScan Example.statusKnown
      Example.constants).2 (by decide) with
    | ⟨g, h1, h2, h3, h4, h5⟩ =>
      ⟨g, h1, h2, h3, by rw [h4, h3]; rfl, by rw [h5, h4, h3]; rfl⟩⟩

/-- C19. The validation of a transaction set reports the verdict of the engine:
for a request body that decodes to a list of transactions the handler calls
`TryTransactionSet` once, on that list; it answers success exactly when the call
returns no error, and when the call returns an error it answers a failure whose
message ends with the reason of the engine, unchanged. -/
theorem validation_reports_engine_verdict
    (decode : String → Except String (List (Transaction UC FCR SP TS)))
    (TryTransactionSet : List (Transaction UC FCR SP TS) → Option String)
    (body : String) (txnset : List (Transaction UC FCR SP TS))
    (hd : decode body = .ok txnset) :
    (consensusValidateTransactionsetHandler decode TryTransactionSet body).tried = [txnset] ∧
    ((consensusValidateTransactionsetHandler decode TryTransactionSet body).response =
        .success ↔ TryTransactionSet txnset = none) ∧
    (∀ reason : String, TryTransactionSet txnset = some reason →
      (consensusValidateTransactionsetHandler decode TryTransactionSet body).response =
        .error ("transaction set validation failed: " ++ reason) StatusBadRequest) := by
  cases ht : TryTransactionSet txnset with
  | none => simp [consensusValidateTransactionsetHandler, hd, ht]
  | some err => simp [consensusValidateTransactionsetHandler, hd, ht]

/-- Witness of C19: a body with one transaction, which the example engine
rejects, and an empty set, which it accepts. -/
theorem validation_reports_engine_verdict_witness :
    (Example.decode "[tx]" = .ok [Example.tx] ∧
      (consensusValidateTransactionsetHandler Example.decode Example.tryTransactionSet
        "[tx]").response =
        .error ("transaction set validation failed: " ++
          "transaction spends a nonexisting siacoin output") 400) ∧
    (Example.decode "[]" = .ok [] ∧
      (consensusValidateTransactionsetHandler Example.decode Example.tryTransactionSet
        "[]").response = .success) :=
  ⟨⟨rfl,
      (validation_reports_engine_verdict Example.decode Example.tryTransactionSet "[tx]"
        [Example.tx] rfl).2.2 _ (by decide)⟩,
    ⟨rfl,
      (validation_reports_engine_verdict Example.decode Example.tryTransactionSet "[]"
        [] rfl).2.1.2 (by decide)⟩⟩

end

end api

namespace api

open types

/-! ## The subscription to consensus changes -/

section

variable {W : Type}

theorem streamStates_closed (decodeID : String → Except String ConsensusChangeID)
    (idParam : String) (w : W) (result : Option String) (ccid : ConsensusChangeID)
    (hd : decodeID idParam = .ok ccid) (s t : StreamState W)
    (hs : s ∈ streamStates w ccid result)
    (ht : t ∈ streamSteps decodeID idParam w result s) :
    t ∈ streamStates w ccid result := by
  simp only [streamStates, List.mem_cons, List.mem_singleton, List.not_mem_nil, or_false] at hs
  rcases hs with rfl | rfl | rfl | rfl | rfl | rfl | rfl | rfl <;>
    simp [streamSteps, handlerStep, routineStep, hd] at ht <;>
    (try rcases ht with rfl | rfl) <;>
    simp [streamStates, fullStream]

theorem reachable_mem_streamStates (decodeID : String → Except String ConsensusChangeID)
    (idParam : String) (w : W) (result : Option String) (ccid : ConsensusChangeID)
    (hd : decodeID idParam = .ok ccid) (s : StreamState W)
    (hr : StreamReachable decodeID idParam w result s) :
    s ∈ streamStates w ccid result := by
  induction hr with
  | init => simp [streamStates, StreamState.init]
  | next s t _ ht ih => exact streamStates_closed decodeID idParam w result ccid hd s t ih ht

theorem reachable_of_decode_error (decodeID : String → Except String ConsensusChangeID)
    (idParam : String) (w : W) (result : Option String) (err : String)
    (hd : decodeID idParam = .error err) (s : StreamState W)
    (hr : StreamReachable decodeID idParam w result s) :
    s = StreamState.init ∨
    s = ⟨.returned, .absent, [], [],
      [.error ("could not decode ID: " ++ err) StatusBadRequest]⟩ := by
  induction hr with
  | init => exact Or.inl rfl
  | next s t _ ht ih =>
    rcases ih with rfl | rfl
    · simp [streamSteps, handlerStep, routineStep, hd, StreamState.init] at ht
      exact Or.inr ht
    · simp [streamSteps, handlerStep, routineStep] at ht

theorem final_reachable (decodeID : String → Except String ConsensusChangeID)
    (idParam : String) (w : W) (result : Option String) (ccid : ConsensusChangeID)
    (hd : decodeID idParam = .ok ccid) :
    StreamReachable decodeID idParam w result
      ⟨.returned, .finished, [], fullStream w ccid result, []⟩ := by
  have h0 : StreamReachable decodeID idParam w result StreamState.init := .init
  have h1 := StreamReachable.next _ ⟨.receiving, .subscribing ccid, [], [], []⟩ h0
    (by simp [streamSteps, handlerStep, routineStep, hd, StreamState.init])
  have h2 := StreamReachable.next _
    ⟨.receiving, .inCall, [], [.SubscribeCalled (newConsensusChangeStreamer w) ccid], []⟩ h1
    (by simp [streamSteps, handlerStep, routineStep])
  have h3 := StreamReachable.next _
    ⟨.receiving, .sending result, [],
      [.SubscribeCalled (newConsensusChangeStreamer w) ccid, .SubscribeReturned result], []⟩ h2
    (by simp [streamSteps, handlerStep, routineStep])
  have h4 := StreamReachable.next _
    ⟨.receiving, .unsubscribing, [result],
      [.SubscribeCalled (newConsensusChangeStreamer w) ccid, .SubscribeReturned result], []⟩ h3
    (by simp [streamSteps, handlerStep, routineStep])
  have h5 := StreamReachable.next _
    ⟨.returned, .unsubscribing, [],
      [.SubscribeCalled (newConsensusChangeStreamer w) ccid, .SubscribeReturned result], []⟩ h4
    (by simp [streamSteps, handlerStep, routineStep])
  exact StreamReachable.next _ _ h5
    (by simp [streamSteps, handlerStep, routineStep, fullStream])

theorem stepsLeft_decreases (decodeID : String → Except String ConsensusChangeID)
    (idParam : String) (w : W) (result : Option String) (s t : StreamState W)
    (ht : t ∈ streamSteps decodeID idParam w result s) : stepsLeft t < stepsLeft s := by
  obtain ⟨h, r, ch, ev, wr⟩ := s
  simp only [streamSteps, List.mem_append, Option.mem_toList, Option.mem_def] at ht
  rcases ht with ht | ht
  · cases h with
    | decoding =>
      cases hd : decodeID idParam with
      | error e =>
        simp only [handlerStep, hd, Option.some.injEq] at ht
        subst ht
        simp only [stepsLeft]
        omega
      | ok c =>
        simp only [handlerStep, hd, Option.some.injEq] at ht
        subst ht
        simp only [stepsLeft]
        omega
    | receiving =>
      cases ch with
      | nil => simp [handlerStep] at ht
      | cons e rest =>
        simp only [handlerStep, Option.some.injEq] at ht
        subst ht
        simp only [stepsLeft]
        omega
    | returned => simp [handlerStep] at ht
  · cases r with
    | absent => simp [routineStep] at ht
    | subscribing c =>
      simp only [routineStep, Option.some.injEq] at ht
      subst ht
      simp only [stepsLeft]
      omega
    | inCall =>
      simp only [routineStep, Option.some.injEq] at ht
      subst ht
      simp only [stepsLeft]
      omega
    | sending e =>
      by_cases hc : ch.length < 1
      · simp only [routineStep, hc, if_true, Option.some.injEq] at ht
        subst ht
        simp only [stepsLeft]
        omega
      · simp [routineStep, hc] at ht
    | unsubscribing =>
      simp only [routineStep, Option.some.injEq] at ht
      subst ht
      simp only [stepsLeft]
      omega
    | finished => simp [routineStep] at ht

/-- C20. `Unsubscribe` happens exactly once per stream. For a request whose
resumption point decodes, whatever `ConsensusSetSubscribe` returns (an error or
none), the run can end, and in every state that the request reaches the events
seen by the engine are a beginning of: the call of `ConsensusSetSubscribe`, its
return, the call of `Unsubscribe` with the same subscriber; so `Unsubscribe` is
never called before `ConsensusSetSubscribe` has returned, and in a state where
neither the handler nor the goroutine has a step left the events are exactly
these three and the handler has returned. For a request whose resumption point
does not decode the engine sees no event in any state. Every step brings the
end of the run nearer, so every run ends. -/
theorem unsubscribe_exactly_once (decodeID : String → Except String ConsensusChangeID)
    (idParam : String) (w : W) (result : Option String) :
    (∀ ccid : ConsensusChangeID, decodeID idParam = .ok ccid →
      StreamReachable decodeID idParam w result
        ⟨.returned, .finished, [], fullStream w ccid result, []⟩ ∧
      ∀ s : StreamState W, StreamReachable decodeID idParam w result s →
        (∃ rest, s.events ++ rest = fullStream w ccid result) ∧
        (streamSteps decodeID idParam w result s = [] →
          s.events = fullStream w ccid result ∧ s.handler = .returned ∧ s.written = [])) ∧
    (∀ err : String, decodeID idParam = .error err →
      ∀ s : StreamState W, StreamReachable decodeID idParam w result s →
        s.events = [] ∧ s.routine = .absent) ∧
    (∀ s t : StreamState W, t ∈ streamSteps decodeID idParam w result s →
      stepsLeft t < stepsLeft s) := by
  refine ⟨?_, ?_, ?_⟩
  · intro ccid hd
    refine ⟨final_reachable decodeID idParam w result ccid hd, ?_⟩
    intro s hr
    have hs := reachable_mem_streamStates decodeID idParam w result ccid hd s hr
    simp only [streamStates, List.mem_cons, List.mem_singleton, List.not_mem_nil,
      or_false] at hs
    rcases hs with rfl | rfl | rfl | rfl | rfl | rfl | rfl | rfl <;>
      simp [streamSteps, handlerStep, routineStep, hd, fullStream]
  · intro err hd s hr
    rcases reachable_of_decode_error decodeID idParam w result err hd s hr with rfl | rfl
    · exact ⟨rfl, rfl⟩
    · exact ⟨rfl, rfl⟩
  · intro s t ht
    exact stepsLeft_decreases decodeID idParam w result s t ht

/-- Witness of C20: a subscription that the engine ends with an error and one
that ends by cancellation both reach the state with the three events; a request
with a malformed resumption point reaches no state with an event. -/
theorem unsubscribe_exactly_once_witness :
    Example.decodeID Example.knownID = .ok (List.replicate 64 97) ∧
    StreamReachable Example.decodeID Example.knownID 1 (some "unknown change")
      ⟨.returned, .finished, [],
        [.SubscribeCalled ⟨1⟩ (List.replicate 64 97),
          .SubscribeReturned (some "unknown change"), .Unsubscribe ⟨1⟩], []⟩ ∧
    StreamReachable Example.decodeID Example.knownID 1 none
      ⟨.returned, .finished, [],
        [.SubscribeCalled ⟨1⟩ (List.replicate 64 97), .SubscribeReturned none,
          .Unsubscribe ⟨1⟩], []⟩ ∧
    (StreamState.init : StreamState Nat).events = [] :=
  ⟨rfl,
    ((unsubscribe_exactly_once Example.decodeID Example.knownID 1
      (some "unknown change")).1 (List.replicate 64 97) rfl).1,
    ((unsubscribe_exactly_once Example.decodeID Example.knownID 1 none).1
      (List.replicate 64 97) rfl).1,
    ((unsubscribe_exactly_once Example.decodeID "abc" 1 none).2.1
      "encoded value has the wrong length to be a hash" rfl StreamState.init .init).1⟩

end

end api

namespace api

open types

/-! ## The streamer of consensus changes -/

section

variable {CC : Type}

theorem deliver_written (encode : CC → Bytes) (changes : List CC)
    (ccs : consensusChangeStreamer Bytes) :
    (deliver encode ccs changes).e = ccs.e ++ (changes.map encode).flatten := by
  induction changes generalizing ccs with
  | nil => simp [deliver]
  | cons c cs ih =>
    have := ih (ProcessConsensusChange encode ccs c)
    simp only [deliver, List.foldl_cons] at this ⊢
    rw [this]
    simp [ProcessConsensusChange, List.append_assoc]

/-- C21. Changes are streamed in delivery order without buffering: after the
deliveries of c1..cn to a streamer through `ProcessConsensusChange`, the writer
holds what it held before followed by exactly encode(c1) ‖ ... ‖ encode(cn); one
delivery adds the encoding of exactly its own change, at the end, before it
returns; and with no delivery nothing is written. -/
theorem changes_streamed_in_delivery_order (encode : CC → Bytes) (w : Bytes)
    (changes : List CC) :
    (deliver encode (newConsensusChangeStreamer w) changes).e =
      w ++ (changes.map encode).flatten ∧
    (∀ (ccs : consensusChangeStreamer Bytes) (cc : CC),
      (ProcessConsensusChange encode ccs cc).e = ccs.e ++ encode cc) ∧
    (∀ (cc : CC), (deliver encode (newConsensusChangeStreamer w) (changes ++ [cc])).e =
      (deliver encode (newConsensusChangeStreamer w) changes).e ++ encode cc) ∧
    (deliver encode (newConsensusChangeStreamer w) ([] : List CC)).e = w := by
  refine ⟨deliver_written encode changes _, fun _ _ => rfl, ?_, rfl⟩
  intro cc
  simp [deliver_written, newConsensusChangeStreamer, List.append_assoc]

end

section

variable {W : Type}

/-- C22. A registry error ends the stream silently: for a request whose
resumption point decodes and whose `ConsensusSetSubscribe` returns an error, the
handler has written nothing of its own in any state the request reaches, so the
response holds only what the streamer has encoded; when the error is on the
channel the handler takes it and returns, still without writing; and a state
with no step left has the handler returned. -/
theorem registry_error_ends_stream_silently
    (decodeID : String → Except String ConsensusChangeID) (idParam : String) (w : W)
    (err : String) (ccid : ConsensusChangeID) (hd : decodeID idParam = .ok ccid)
    (s : StreamState W) (hr : StreamReachable decodeID idParam w (some err) s) :
    s.written = [] ∧
    (∀ (render : Response Unit → Bytes) (streamed : Bytes),
      responseBytes render streamed s = streamed) ∧
    (s.handler = .receiving → s.errCh = [some err] →
      handlerStep decodeID idParam s =
        some { s with handler := .returned, errCh := [] }) ∧
    (streamSteps decodeID idParam w (some err) s = [] → s.handler = .returned) := by
  have hs := reachable_mem_streamStates decodeID idParam w (some err) ccid hd s hr
  simp only [streamStates, List.mem_cons, List.mem_singleton, List.not_mem_nil,
    or_false] at hs
  rcases hs with rfl | rfl | rfl | rfl | rfl | rfl | rfl | rfl <;>
    simp [streamSteps, handlerStep, routineStep, hd, responseBytes]

/-- Witness of C22: the state in which the error "unknown change" is on the
channel is reached; the handler has written nothing there and its next step is
to take the error and return. -/
theorem registry_error_ends_stream_silently_witness :
    Example.decodeID Example.knownID = .ok (List.replicate 64 97) ∧
    StreamReachable Example.decodeID Example.knownID 1 (some "unknown change")
      (Example.errorRun.getD 3 StreamState.init) ∧
    (Example.errorRun.getD 3 StreamState.init).written = [] ∧
    handlerStep Example.decodeID Example.knownID (Example.errorRun.getD 3 StreamState.init) =
      some { Example.errorRun.getD 3 StreamState.init with handler := .returned, errCh := [] } :=
  have h1 : StreamReachable Example.decodeID Example.knownID 1 (some "unknown change")
      (Example.errorRun.getD 0 StreamState.init) := .next _ _ .init (by decide)
  have h2 : StreamReachable Example.decodeID Example.knownID 1 (some "unknown change")
      (Example.errorRun.getD 1 StreamState.init) := .next _ _ h1 (by decide)
  have h3 : StreamReachable Example.decodeID Example.knownID 1 (some "unknown change")
      (Example.errorRun.getD 2 StreamState.init) := .next _ _ h2 (by decide)
  have h4 : StreamReachable Example.decodeID Example.knownID 1 (some "unknown change")
      (Example.errorRun.getD 3 StreamState.init) := .next _ _ h3 (by decide)
  ⟨rfl, h4,
    (registry_error_ends_stream_silently Example.decodeID Example.knownID 1
      "unknown change" (List.replicate 64 97) rfl _ h4).1,
    (registry_error_ends_stream_silently Example.decodeID Example.knownID 1
      "unknown change" (List.replicate 64 97) rfl _ h4).2.2.1 rfl rfl⟩

end

end api

namespace types

/-! ## Signature accessors, the claim output ID and determinism -/

section

variable {UC FCR SP TS : Type}

/-- C23. Signature roles are selected by fixed position: for a transaction with
at least two signatures `RenterSignature` returns the first of them and
`HostSignature` the second, whatever the signatures are; the two results are
equal only if the first two signatures are. -/
theorem signature_roles_by_position (t : Transaction UC FCR SP TS) (s0 s1 : TS)
    (rest : List TS) (h : t.TransactionSignatures = s0 :: s1 :: rest) :
    t.RenterSignature = some s0 ∧ t.HostSignature = some s1 ∧
    (t.RenterSignature = t.HostSignature → s0 = s1) := by
  simp [Transaction.RenterSignature, Transaction.HostSignature, h]

/-- Witness of C23: the example transaction, signed with 11 and 12. -/
theorem signature_roles_by_position_witness :
    Example.tx.TransactionSignatures = 11 :: 12 :: [] ∧
    Example.tx.RenterSignature = some 11 ∧ Example.tx.HostSignature = some 12 :=
  ⟨rfl, (signature_roles_by_position Example.tx 11 12 [] rfl).1,
    (signature_roles_by_position Example.tx 11 12 [] rfl).2.1⟩

/-- C28. The signature accessors are partial: `RenterSignature` returns a
signature exactly for the transactions with at least one signature and
`HostSignature` exactly for those with at least two; with fewer signatures the
index is out of range and the call fails, no default signature is returned. -/
theorem signature_accessors_out_of_range (t : Transaction UC FCR SP TS) :
    ((∃ s, t.RenterSignature = some s) ↔ 1 ≤ t.TransactionSignatures.length) ∧
    ((∃ s, t.HostSignature = some s) ↔ 2 ≤ t.TransactionSignatures.length) ∧
    (t.TransactionSignatures.length < 1 → t.RenterSignature = none) ∧
    (t.TransactionSignatures.length < 2 → t.HostSignature = none) := by
  simp only [Transaction.RenterSignature, Transaction.HostSignature]
  refine ⟨?_, ?_, ?_, ?_⟩
  · rw [← Option.isSome_iff_exists]
    cases h : t.TransactionSignatures <;> simp
  · rw [← Option.isSome_iff_exists]
    rcases h : t.TransactionSignatures with _ | ⟨a, _ | ⟨b, l⟩⟩ <;> simp
  · intro h
    exact List.getElem?_eq_none (by omega)
  · intro h
    exact List.getElem?_eq_none (by omega)

/-- Witness of C28: the re-signed transaction has one signature, so it has a
renter signature and no host signature. -/
theorem signature_accessors_out_of_range_witness :
    Example.txResigned.TransactionSignatures.length = 1 ∧
    Example.txResigned.RenterSignature = some 99 ∧
    Example.txResigned.HostSignature = none ∧
    Example.txOther2.RenterSignature = none :=
  ⟨rfl, rfl,
    (signature_accessors_out_of_range Example.txResigned).2.2.2 (by decide),
    (signature_accessors_out_of_range Example.txOther2).2.2.1 (by decide)⟩

/-- C24. The siafund claim output ID is derived from the siafund output ID
alone: `SiaClaimOutputID(id)` is the hash of the encoding of `id` and of nothing
else, so equal siafund output IDs give equal claim output IDs, from whatever
transactions and positions they were derived. -/
theorem claim_output_id_from_id_alone (hash : Bytes → Hash)
    (marshal : SiafundOutputID → Bytes) (E : FieldEncoders UC FCR SP) :
    (∀ id : SiafundOutputID, SiaClaimOutputID hash marshal id = hash (marshal id)) ∧
    (∀ id1 id2 : SiafundOutputID, id1 = id2 →
      SiaClaimOutputID hash marshal id1 = SiaClaimOutputID hash marshal id2) ∧
    (∀ (t1 t2 : Transaction UC FCR SP TS) (i1 i2 : Nat),
      t1.SiafundOutputID hash E i1 = t2.SiafundOutputID hash E i2 →
      SiaClaimOutputID hash marshal (t1.SiafundOutputID hash E i1) =
        SiaClaimOutputID hash marshal (t2.SiafundOutputID hash E i2)) := by
  refine ⟨fun _ => rfl, ?_, ?_⟩
  · intro id1 id2 h
    rw [h]
  · intro t1 t2 i1 i2 h
    rw [h]

/-- Witness of C24: the example transaction and its re-signed copy have the same
siafund output ID at position 0, hence the same claim output ID. -/
theorem claim_output_id_from_id_alone_witness :
    Example.tx ≠ Example.txResigned ∧
    SiaClaimOutputID Example.hash (fun id => id)
        (Example.tx.SiafundOutputID Example.hash Example.encoders 0) =
      SiaClaimOutputID Example.hash (fun id => id)
        (Example.txResigned.SiafundOutputID Example.hash Example.encoders 0) :=
  ⟨by decide,
    (claim_output_id_from_id_alone Example.hash (fun id => id) Example.encoders).2.2
      Example.tx Example.txResigned 0 0 (by decide)⟩

end

end types

namespace siad

/-! ## The updater -/

theorem split_VERSION : strings.Split VERSION = ["0", "1", "0"] := by decide

theorem atoi_components :
    strconv.Atoi "0" = 0 ∧ strconv.Atoi "1" = 1 := by decide

theorem newerVersionLoop_short (nums : List String) (h : nums.length ≤ 3) :
    ∃ r, newerVersionLoop ["0", "1", "0"] nums 0 = some r := by
  rcases nums with _ | ⟨a, _ | ⟨b, _ | ⟨c, _ | ⟨d, rest⟩⟩⟩⟩
  · exact ⟨false, rfl⟩
  · simp only [newerVersionLoop, List.getElem?_cons_zero]
    split <;> simp
  · simp only [newerVersionLoop, List.getElem?_cons_zero, List.getElem?_cons_succ]
    split
    · simp
    · split <;> simp
  · simp only [newerVersionLoop, List.getElem?_cons_zero, List.getElem?_cons_succ]
    split
    · simp
    · split
      · simp
      · split <;> simp
  · simp at h

theorem newerVersionLoop_long (a b c d : String) (rest : List String) :
    newerVersionLoop ["0", "1", "0"] (a :: b :: c :: d :: rest) 0 = none ↔
      strconv.Atoi a ≤ strconv.Atoi "0" ∧ strconv.Atoi b ≤ strconv.Atoi "1" ∧
        strconv.Atoi c ≤ strconv.Atoi "0" := by
  simp only [newerVersionLoop, List.getElem?_cons_zero, List.getElem?_cons_succ]
  by_cases ha : strconv.Atoi a > strconv.Atoi "0"
  · simp [ha]
  · by_cases hb : strconv.Atoi b > strconv.Atoi "1"
    · simp [ha, hb]
    · by_cases hc : strconv.Atoi c > strconv.Atoi "0"
      · simp [ha, hb, hc]
      · simp [ha, hb, hc]
        omega

/-- C29. The function `newerVersion` indexes the components of `VERSION` safely
only when the version has no more components than `VERSION`: with at most three
components it returns a result and no index is out of range; with more than
three components it reaches the fourth component of `VERSION`, which is out of
range, exactly when none of its first three components exceeds the component of
`VERSION` at the same place. -/
theorem newerVersion_index_safety (version : String) :
    strings.Split VERSION = ["0", "1", "0"] ∧
    ((strings.Split version).length ≤ 3 → ∃ r, newerVersion version = some r) ∧
    (∀ (a b c d : String) (rest : List String),
      strings.Split version = a :: b :: c :: d :: rest →
      (newerVersion version = none ↔
        strconv.Atoi a ≤ strconv.Atoi "0" ∧ strconv.Atoi b ≤ strconv.Atoi "1" ∧
          strconv.Atoi c ≤ strconv.Atoi "0")) := by
  refine ⟨split_VERSION, ?_, ?_⟩
  · intro h
    simp only [newerVersion, split_VERSION]
    exact newerVersionLoop_short _ h
  · intro a b c d rest h
    simp only [newerVersion, split_VERSION, h]
    exact newerVersionLoop_long a b c d rest

/-- Witness of C29: "0.2" has two components and gives a result; of the strings
with four components "0.1.0.5" runs out of range and "0.2.0.0" does not. -/
theorem newerVersion_index_safety_witness :
    newerVersion "0.2" = some true ∧ newerVersion "0.1.0.5" = none ∧
    newerVersion "0.2.0.0" ≠ none :=
  ⟨by decide,
    ((newerVersion_index_safety "0.1.0.5").2.2 "0" "1" "0" "5" [] (by decide)).2 (by decide),
    fun h => absurd (((newerVersion_index_safety "0.2.0.0").2.2 "0" "2" "0" "0" []
      (by decide)).1 h) (by decide)⟩

/-- C27, at the failing input. The version "0.0.5" is older than `VERSION`
"0.1.0" in the order of versions, and `newerVersion` answers true for it: the
loop returns true as soon as any component is greater than the component of
`VERSION` at the same place, here the third. For `VERSION` itself it answers
false. -/
theorem newerVersion_older_version_accepted :
    newerVersion "0.0.5" = some true ∧
    versionGreater 0 0 5 0 1 0 = false ∧
    strings.Split "0.0.5" = ["0", "0", "5"] ∧
    newerVersion VERSION = some false := by
  refine ⟨by decide, by decide, by decide, by decide⟩

end siad

namespace api

open types

/-! ## The block view without its IDs -/

section

variable {UC FCR SP TS : Type}

theorem erase_viewProofOutputs (spo : FileContractID → ProofStatus → Nat → SiacoinOutputID)
    (fcid : FileContractID) (status : ProofStatus) (outputs : List SiacoinOutput) :
    (viewProofOutputs spo fcid status outputs).map ConsensusBlocksGetSiacoinOutput.erase =
      outputs := by
  rw [viewProofOutputs_eq, List.map_map]
  have h : (ConsensusBlocksGetSiacoinOutput.erase ∘
      fun p : Nat × SiacoinOutput => (⟨spo fcid status p.1, p.2.Value, p.2.UnlockHash⟩ :
        ConsensusBlocksGetSiacoinOutput)) = Prod.snd := by
    funext p
    rfl
  rw [h, List.enum_map_snd]

/-- Erasing the IDs of the view of a transaction gives the transaction without
the claim start of its siafund outputs. -/
theorem erase_viewTxn (env : Env UC FCR SP TS)
    (spo : FileContractID → ProofStatus → Nat → SiacoinOutputID)
    (t : Transaction UC FCR SP TS) :
    (viewTxn env spo t).erase = forgetClaimStart t := by
  have h1 : (viewSiacoinOutputs env t).map ConsensusBlocksGetSiacoinOutput.erase =
      t.SiacoinOutputs := by
    rw [viewSiacoinOutputs_eq, List.map_map]
    have h : (ConsensusBlocksGetSiacoinOutput.erase ∘
        fun p : Nat × SiacoinOutput =>
          (⟨t.SiacoinOutputID env.hash env.E p.1, p.2.Value, p.2.UnlockHash⟩ :
            ConsensusBlocksGetSiacoinOutput)) = Prod.snd := by
      funext p
      rfl
    rw [h, List.enum_map_snd]
  have h2 : (viewSiafundOutputs env t).map ConsensusBlocksGetSiafundOutput.erase =
      t.SiafundOutputs.map (fun o => ⟨o.Value, o.UnlockHash⟩) := by
    rw [viewSiafundOutputs_eq, List.map_map]
    have h : (ConsensusBlocksGetSiafundOutput.erase ∘
        fun p : Nat × SiafundOutput =>
          (⟨t.SiafundOutputID env.hash env.E p.1, p.2.Value, p.2.UnlockHash⟩ :
            ConsensusBlocksGetSiafundOutput)) =
        (fun o : SiafundOutput => (⟨o.Value, o.UnlockHash⟩ : ErasedSiafundOutput)) ∘
          Prod.snd := by
      funext p
      rfl
    rw [h, ← List.map_map, List.enum_map_snd]
  have h3 : (viewFileContracts env spo t).map ConsensusBlocksGetFileContract.erase =
      t.FileContracts := by
    rw [viewFileContracts_eq, List.map_map]
    have h : (ConsensusBlocksGetFileContract.erase ∘
        fun p : Nat × FileContract =>
          (⟨t.FileContractID env.hash env.E p.1, p.2.FileSize, p.2.FileMerkleRoot,
            p.2.WindowStart, p.2.WindowEnd, p.2.Payout,
            viewProofOutputs spo (t.FileContractID env.hash env.E p.1) ProofStatus.ProofValid
              p.2.ValidProofOutputs,
            viewProofOutputs spo (t.FileContractID env.hash env.E p.1) ProofStatus.ProofMissed
              p.2.MissedProofOutputs,
            p.2.UnlockHash, p.2.RevisionNumber⟩ : ConsensusBlocksGetFileContract)) =
        Prod.snd := by
      funext p
      simp only [Function.comp, ConsensusBlocksGetFileContract.erase, erase_viewProofOutputs]
    rw [h, List.enum_map_snd]
  simp only [ConsensusBlocksGetTxn.erase, viewTxn, forgetClaimStart, h1, h2, h3]

/-- Counterexample to C26 as stated. The view of a siafund output holds its
value and unlock hash and no claim start. Two blocks whose only transaction
differs in the claim start of its siafund output, 5 and 0, have views that are
equal once the IDs are erased, so the transactions of the first are not given
back by its view: putting the claim start back as zero gives those of the
second. The first block breaks the rule that a siafund output inside a
transaction has claim start zero. -/
theorem view_drops_claim_start :
    Example.blockClaim.Transactions ≠ Example.blockNoClaim.Transactions ∧
    Example.blockClaim.Transactions.map (fun t => t.SiafundOutputs.map (fun o => o.ClaimStart)) =
      [[5]] ∧
    (consensusBlocksGetFromBlock Example.envScan Example.spo Example.blockClaim 1
        2).Transactions.map ConsensusBlocksGetTxn.erase =
      (consensusBlocksGetFromBlock Example.envScan Example.spo Example.blockNoClaim 1
        2).Transactions.map ConsensusBlocksGetTxn.erase ∧
    (consensusBlocksGetFromBlock Example.envScan Example.spo Example.blockClaim 1
        2).Transactions.map (fun t => t.SiafundOutputs.map ConsensusBlocksGetSiafundOutput.erase) =
      [[⟨1000, []⟩]] ∧
    (consensusBlocksGetFromBlock Example.envScan Example.spo Example.blockClaim 1
        2).Transactions.map (fun t => t.erase.restore) = Example.blockNoClaim.Transactions ∧
    ¬ ClaimStartZero Example.blockClaim := by
  refine ⟨by decide, by decide, by decide, by decide, by decide, by decide⟩

end

end api

namespace api

open types

/-! ## The transactions of a block, given back from its view -/

section

variable {UC FCR SP TS : Type}

theorem restore_forgetClaimStart (t : Transaction UC FCR SP TS)
    (h : ∀ o ∈ t.SiafundOutputs, o.ClaimStart = 0) :
    (forgetClaimStart t).restore = t := by
  have hs : (t.SiafundOutputs.map (fun o => (⟨o.Value, o.UnlockHash⟩ : ErasedSiafundOutput))).map
      (fun o => (⟨o.Value, o.UnlockHash, 0⟩ : SiafundOutput)) = t.SiafundOutputs := by
    rw [List.map_map]
    conv_rhs => rw [← List.map_id t.SiafundOutputs]
    apply List.map_congr_left
    intro o ho
    have h0 := h o ho
    cases o
    simp only [Function.comp, id]
    simp only at h0
    rw [h0]
  cases t
  simp only [forgetClaimStart, ErasedTxn.restore] at hs ⊢
  rw [hs]

/-- C26, as amended. For every block, erasing the ID fields of the transactions
of its view gives the transactions of the block, in their order, without the
claim start of their siafund outputs: every siacoin output, the value and unlock
hash of every siafund output, every file contract and every field passed through
are those of the block. When the claim start of every siafund output of the
block is zero, as the rule of `SiafundOutput` for transactions requires, the
transactions of the block are given back exactly, the claim start being put
back as zero. -/
theorem view_gives_back_transactions (env : Env UC FCR SP TS)
    (spo : FileContractID → ProofStatus → Nat → SiacoinOutputID)
    (b : Block UC FCR SP TS) (h : BlockHeight) (d : Currency) :
    (consensusBlocksGetFromBlock env spo b h d).Transactions.map ConsensusBlocksGetTxn.erase =
      b.Transactions.map forgetClaimStart ∧
    (ClaimStartZero b →
      (consensusBlocksGetFromBlock env spo b h d).Transactions.map
        (fun t => t.erase.restore) = b.Transactions) := by
  have h1 : (consensusBlocksGetFromBlock env spo b h d).Transactions.map
      ConsensusBlocksGetTxn.erase = b.Transactions.map forgetClaimStart := by
    rw [view_transactions_eq, List.map_map]
    apply List.map_congr_left
    intro t _
    exact erase_viewTxn env spo t
  refine ⟨h1, ?_⟩
  intro hz
  have h2 : (consensusBlocksGetFromBlock env spo b h d).Transactions.map
      (fun t => t.erase.restore) =
      ((consensusBlocksGetFromBlock env spo b h d).Transactions.map
        ConsensusBlocksGetTxn.erase).map ErasedTxn.restore := by
    rw [List.map_map]
    rfl
  rw [h2, h1, List.map_map]
  conv_rhs => rw [← List.map_id b.Transactions]
  apply List.map_congr_left
  intro t ht
  exact restore_forgetClaimStart t (hz t ht)

/-- Witness of C26 as amended: the siafund output of the example block has claim
start zero, and erasing the IDs of its view gives back its transactions. -/
theorem view_gives_back_transactions_witness :
    ClaimStartZero Example.blockNoClaim ∧
    (consensusBlocksGetFromBlock Example.envScan Example.spo Example.blockNoClaim 1
        2).Transactions.map (fun t => t.erase.restore) = Example.blockNoClaim.Transactions :=
  ⟨by decide,
    (view_gives_back_transactions Example.envScan Example.spo Example.blockNoClaim 1 2).2
      (by decide)⟩

end

end api

end Sia
